import Mathlib

/-
Verification of the netlist mutation primitives of src/common/design_utils.cc
(nextpnr). The C++ code mutates a pointer-linked graph of cells, ports and
nets. We embed it shallowly: the heap of cell objects and the heap of net
objects become finite association lists keyed by stable identifiers (the
model of object identity / pointers), the two Graph Store dictionaries
(ctx->cells, ctx->nets) become association lists from names to identifiers,
and each C++ function becomes a Lean function from a Design to Option Design,
where a result of none models a fatal NPNR_ASSERT failure (or an invalid
pointer dereference, which is undefined behaviour in the source and never
exercised by the claims).
-/

set_option autoImplicit false

namespace DesignUtils

/-! ### Association lists

Finite maps, modelling both the hashlib dictionaries of the source
(cell port maps, ctx->cells, ctx->nets) and the object heaps. Insertion
replaces the first occurrence of the key in place (the position an entry
holds is kept, as in the source's vector-backed dict), and appends at the
end when the key is absent. -/

def lookupA {α β : Type} [DecidableEq α] (k : α) : List (α × β) → Option β
  | [] => none
  | (a, b) :: t => if a = k then some b else lookupA k t

def insertA {α β : Type} [DecidableEq α] (k : α) (v : β) : List (α × β) → List (α × β)
  | [] => [(k, v)]
  | (a, b) :: t => if a = k then (k, v) :: t else (a, b) :: insertA k v t

def eraseA {α β : Type} [DecidableEq α] (k : α) : List (α × β) → List (α × β)
  | [] => []
  | (a, b) :: t => if a = k then t else (a, b) :: eraseA k t

section AListLemmas

variable {α β : Type} [DecidableEq α]

@[simp] theorem lookupA_nil (k : α) : lookupA (β := β) k [] = none := rfl

@[simp] theorem lookupA_cons (k a : α) (b : β) (t : List (α × β)) :
    lookupA k ((a, b) :: t) = if a = k then some b else lookupA k t := rfl

@[simp] theorem lookupA_insertA_self (k : α) (v : β) (l : List (α × β)) :
    lookupA k (insertA k v l) = some v := by
  induction l with
  | nil => simp [insertA]
  | cons hd t ih =>
    obtain ⟨a, b⟩ := hd
    by_cases h : a = k <;> simp [insertA, h, ih]

theorem lookupA_insertA_ne {k k' : α} (v : β) (l : List (α × β)) (h : k' ≠ k) :
    lookupA k' (insertA k v l) = lookupA k' l := by
  have hk : ¬ k = k' := fun hk => h hk.symm
  induction l with
  | nil => simp [insertA, lookupA, hk]
  | cons hd t ih =>
    obtain ⟨a, b⟩ := hd
    by_cases ha : a = k
    · subst ha
      simp [insertA, lookupA, hk]
    · simp [insertA, ha, lookupA, ih]

theorem insertA_insertA_same (k : α) (v w : β) (l : List (α × β)) :
    insertA k v (insertA k w l) = insertA k v l := by
  induction l with
  | nil => simp [insertA]
  | cons hd t ih =>
    obtain ⟨a, b⟩ := hd
    by_cases h : a = k <;> simp [insertA, h, ih]

theorem insertA_of_lookupA_eq {k : α} {v : β} {l : List (α × β)}
    (h : lookupA k l = some v) : insertA k v l = l := by
  induction l with
  | nil => simp [lookupA] at h
  | cons hd t ih =>
    obtain ⟨a, b⟩ := hd
    by_cases ha : a = k
    · subst ha
      simp [lookupA] at h
      simp [insertA, h]
    · simp [lookupA, ha] at h
      simp [insertA, ha, ih h]

theorem lookupA_mem {k : α} {v : β} {l : List (α × β)}
    (h : lookupA k l = some v) : (k, v) ∈ l := by
  induction l with
  | nil => simp [lookupA] at h
  | cons hd t ih =>
    obtain ⟨a, b⟩ := hd
    by_cases ha : a = k
    · subst ha
      simp [lookupA] at h
      simp [h]
    · simp [lookupA, ha] at h
      exact List.mem_cons_of_mem _ (ih h)

theorem mem_insertA {k : α} {v : β} {l : List (α × β)} {e : α × β}
    (h : e ∈ insertA k v l) : e = (k, v) ∨ e ∈ l := by
  induction l with
  | nil => simpa [insertA] using h
  | cons hd t ih =>
    obtain ⟨a, b⟩ := hd
    by_cases ha : a = k
    · subst ha
      simp [insertA] at h
      rcases h with h | h
      · exact Or.inl h
      · exact Or.inr (List.mem_cons_of_mem _ h)
    · simp [insertA, ha] at h
      rcases h with h | h
      · exact Or.inr (by simp [h])
      · rcases ih h with h' | h'
        · exact Or.inl h'
        · exact Or.inr (List.mem_cons_of_mem _ h')

theorem lookupA_eraseA_ne {k k' : α} (l : List (α × β)) (h : k' ≠ k) :
    lookupA k' (eraseA k l) = lookupA k' l := by
  have hk : ¬ k = k' := fun hk => h hk.symm
  induction l with
  | nil => simp [eraseA]
  | cons hd t ih =>
    obtain ⟨a, b⟩ := hd
    by_cases ha : a = k
    · subst ha
      simp [eraseA, lookupA, hk]
    · simp [eraseA, ha, lookupA, ih]

theorem lookupA_eq_none_of_forall {k : α} {l : List (α × β)}
    (h : ∀ e ∈ l, e.1 ≠ k) : lookupA k l = none := by
  induction l with
  | nil => rfl
  | cons hd t ih =>
    obtain ⟨a, b⟩ := hd
    have ha : a ≠ k := h (a, b) (by simp)
    simp only [lookupA_cons, if_neg ha]
    exact ih fun e he => h e (List.mem_cons_of_mem _ he)

theorem lookupA_eraseA_self {k : α} {l : List (α × β)}
    (h : (l.map Prod.fst).Nodup) : lookupA k (eraseA k l) = none := by
  induction l with
  | nil => simp [eraseA]
  | cons hd t ih =>
    obtain ⟨a, b⟩ := hd
    simp only [List.map_cons, List.nodup_cons] at h
    by_cases ha : a = k
    · subst ha
      simp only [eraseA, if_pos rfl]
      refine lookupA_eq_none_of_forall fun e he => ?_
      intro hk
      exact h.1 (by rw [← hk]; exact List.mem_map_of_mem Prod.fst he)
    · simp [eraseA, ha, lookupA, ih h.2]

theorem length_insertA_of_lookupA_none {k : α} {l : List (α × β)} (v : β)
    (h : lookupA k l = none) : (insertA k v l).length = l.length + 1 := by
  induction l with
  | nil => simp [insertA]
  | cons hd t ih =>
    obtain ⟨a, b⟩ := hd
    by_cases ha : a = k
    · simp [lookupA, ha] at h
    · simp [lookupA, ha] at h
      simp [insertA, ha, ih h]

theorem length_eraseA_of_lookupA_some {k : α} {v : β} {l : List (α × β)}
    (h : lookupA k l = some v) : (eraseA k l).length + 1 = l.length := by
  induction l with
  | nil => simp [lookupA] at h
  | cons hd t ih =>
    obtain ⟨a, b⟩ := hd
    by_cases ha : a = k
    · simp [eraseA, ha]
    · simp [lookupA, ha] at h
      simp [eraseA, ha, ih h]

end AListLemmas

/-! ### Data model

Translated from the nextpnr context structures used by design_utils.cc:
PortType, PortRef, PortInfo, NetInfo, CellInfo, and the parts of Context
the code touches (ctx->cells, ctx->nets, and the objects those dictionaries
own, modelled as two heaps keyed by stable identifiers). An IdString is
modelled as a String (ctx->id is interning, the identity on the model). -/

inductive PortType where
  | PORT_IN
  | PORT_OUT
  | PORT_INOUT
deriving DecidableEq

abbrev CellId := Nat
abbrev NetId := Nat

/-- A (cell pointer, port name) reference; cell = none models a null cell
pointer (as in a cleared net driver). -/
structure PortRef where
  cell : Option CellId
  port : String
deriving DecidableEq

structure PortInfo where
  name : String
  type : PortType
  net : Option NetId
deriving DecidableEq

structure NetInfo where
  name : String
  driver : PortRef
  users : List PortRef
deriving DecidableEq

structure CellInfo where
  name : String
  ports : List (String × PortInfo)
deriving DecidableEq

/-- The graph state: the two Graph Store dictionaries (name-keyed, as
ctx->cells / ctx->nets) and the two object heaps (the targets of the
CellInfo* / NetInfo* pointers of the source). -/
structure Design where
  cells : List (String × CellId)
  nets : List (String × NetId)
  cellHeap : List (CellId × CellInfo)
  netHeap : List (NetId × NetInfo)
deriving DecidableEq

def getCell (d : Design) (c : CellId) : Option CellInfo := lookupA c d.cellHeap

def getNet (d : Design) (n : NetId) : Option NetInfo := lookupA n d.netHeap

def setCell (d : Design) (c : CellId) (ci : CellInfo) : Design :=
  { d with cellHeap := insertA c ci d.cellHeap }

def setNet (d : Design) (n : NetId) (ni : NetInfo) : Design :=
  { d with netHeap := insertA n ni d.netHeap }

/-- Write one port of one cell (a write through a PortInfo& reference in the
source). A no-op when the cell does not exist; every use below is guarded by
a successful getCell. -/
def setPort (d : Design) (c : CellId) (p : String) (pi : PortInfo) : Design :=
  match getCell d c with
  | none => d
  | some ci => setCell d c { ci with ports := insertA p pi ci.ports }

def getPort (d : Design) (c : CellId) (p : String) : Option PortInfo :=
  match getCell d c with
  | none => none
  | some ci => lookupA p ci.ports

/-- A fresh heap identifier for a newly allocated NetInfo (operator new). -/
def freshNetId (d : Design) : NetId :=
  (d.netHeap.map Prod.fst).foldr max 0 + 1

/-- Does a PortRef match (cell, port_name)? The comparison the source writes
as user.cell == cell and user.port == port_name. -/
def refIs (c : CellId) (p : String) (u : PortRef) : Bool :=
  if u.cell = some c ∧ u.port = p then true else false

/-! ### Connection primitives, translated from design_utils.cc -/

/-- connect_port (design_utils.cc lines 89-108). A null net is a no-op;
a missing port (ports.at), an already connected port, or a second driver
on the net is a fatal assertion (none). -/
def connect_port (d : Design) (net : Option NetId) (cell : CellId)
    (port_name : String) : Option Design :=
  match net with
  | none => some d
  | some nid =>
    match getCell d cell with
    | none => none
    | some ci =>
      match lookupA port_name ci.ports with
      | none => none
      | some port =>
        match port.net with
        | some _ => none
        | none =>
          let d1 := setPort d cell port_name { port with net := some nid }
          match getNet d1 nid with
          | none => none
          | some n =>
            match port.type with
            | PortType.PORT_OUT =>
              match n.driver.cell with
              | some _ => none
              | none =>
                some (setNet d1 nid
                  { n with driver := { cell := some cell, port := port_name } })
            | PortType.PORT_IN | PortType.PORT_INOUT =>
              some (setNet d1 nid
                { n with users := n.users ++ [{ cell := some cell, port := port_name }] })

/-- The net update performed by disconnect_port (design_utils.cc lines
110-125) on the port's net: every matching user entry removed, the driver
cell cleared when it matches (the driver's port name field is left as is,
exactly as in the source). -/
def pruneNet (cell : CellId) (port_name : String) (n : NetInfo) : NetInfo :=
  let n1 := { n with users := n.users.filter (fun u => ! refIs cell port_name u) }
  if n1.driver.cell = some cell ∧ n1.driver.port = port_name then
    { n1 with driver := { n1.driver with cell := none } }
  else n1

/-- disconnect_port (design_utils.cc lines 110-125). Missing port or
unconnected port is a no-op; a connected port has its net pruned of every
reference to it and its own net reference cleared. -/
def disconnect_port (d : Design) (cell : CellId) (port_name : String) :
    Option Design :=
  match getCell d cell with
  | none => none
  | some ci =>
    match lookupA port_name ci.ports with
    | none => some d
    | some port =>
      match port.net with
      | none => some d
      | some nid =>
        match getNet d nid with
        | none => none
        | some n =>
          some (setPort (setNet d nid (pruneNet cell port_name n)) cell port_name
            { port with net := none })

/-- connect_ports (design_utils.cc lines 127-140). When port1 is
unconnected: a fresh NetInfo is allocated, named cell1name ++ s conn s ++
port1name, port1 is connected to it, a collision of that name with an
existing identifier in ctx->cells (only cells are checked) is a fatal
assertion, the net is moved into ctx->nets (overwriting any existing entry
of that name, as the source's operator[] assignment does), and finally
port2 is connected to port1's (re-read) net. -/
def connect_ports (d : Design) (cell1 : CellId) (port1_name : String)
    (cell2 : CellId) (port2_name : String) : Option Design :=
  match getCell d cell1 with
  | none => none
  | some c1 =>
    match lookupA port1_name c1.ports with
    | none => none
    | some port1 =>
      match port1.net with
      | some nid => connect_port d (some nid) cell2 port2_name
      | none =>
        let fresh := freshNetId d
        let nm := c1.name ++ "$conn$" ++ port1_name
        let newNet : NetInfo := { name := nm, driver := { cell := none, port := "" }, users := [] }
        let d1 := { d with netHeap := (insertA fresh newNet d.netHeap) }
        match connect_port d1 (some fresh) cell1 port1_name with
        | none => none
        | some d2 =>
          match lookupA nm d2.cells with
          | some _ => none
          | none =>
            let d3 := { d2 with nets := insertA nm fresh d2.nets }
            match getPort d3 cell1 port1_name with
            | none => none
            | some p1 => connect_port d3 p1.net cell2 port2_name

/-! ### Rewire primitives, translated from design_utils.cc -/

/-- The direction dispatch of replace_port (design_utils.cc lines 45-61)
after the net transfer: for OUT the driver reference is re-pointed at the
replacement (cell, port), for IN every user entry matching the old
(cell, port) is rewritten, INOUT is a fatal assertion; nothing happens
when the transferred net is null. -/
def replaceTail (d3 : Design) (old_cell : CellId) (old_name : String)
    (rep_cell : CellId) (rep_name : String) (rep2 : PortInfo) : Option Design :=
  match rep2.type with
  | PortType.PORT_OUT =>
    match rep2.net with
    | none => some d3
    | some nid =>
      match getNet d3 nid with
      | none => none
      | some n =>
        some (setNet d3 nid
          { n with driver := { cell := some rep_cell, port := rep_name } })
  | PortType.PORT_IN =>
    match rep2.net with
    | none => some d3
    | some nid =>
      match getNet d3 nid with
      | none => none
      | some n =>
        some (setNet d3 nid
          { n with users := n.users.map (fun load =>
              if load.cell = some old_cell ∧ load.port = old_name then
                { cell := some rep_cell, port := rep_name }
              else load) })
  | PortType.PORT_INOUT => none

/-- replace_port (design_utils.cc lines 28-62). The C++ references old and
rep are modelled by re-reading the current state at every use, so the
aliased call (old and rep naming the same port) behaves as the source
does. A missing old port is a no-op; a direction mismatch of two
pre-existing ports, or an INOUT direction, is a fatal assertion. -/
def replace_port (d : Design) (old_cell : CellId) (old_name : String)
    (rep_cell : CellId) (rep_name : String) : Option Design :=
  match getCell d old_cell with
  | none => none
  | some oc =>
    match lookupA old_name oc.ports with
    | none => some d
    | some old0 =>
      match getCell d rep_cell with
      | none => none
      | some rc =>
        let d1 :=
          match lookupA rep_name rc.ports with
          | some _ => d
          | none => setPort d rep_cell rep_name
              { name := rep_name, type := old0.type, net := none }
        match getPort d1 old_cell old_name, getPort d1 rep_cell rep_name with
        | some old1, some rep1 =>
          if old1.type = rep1.type then
            let d2 := setPort d1 rep_cell rep_name { rep1 with net := old1.net }
            match getPort d2 old_cell old_name with
            | none => none
            | some old2 =>
              let d3 := setPort d2 old_cell old_name { old2 with net := none }
              match getPort d3 rep_cell rep_name with
              | none => none
              | some rep2 => replaceTail d3 old_cell old_name rep_cell rep_name rep2
          else none
        | _, _ => none

/-- rename_port (design_utils.cc lines 142-157). pi is a copy of the old
port record; the net's driver port name and matching user port names are
rewritten in place, then the old entry is erased and the record re-inserted
under the new name (overwriting any existing entry of that name, as the
source's dict assignment does). -/
def rename_port (d : Design) (cell : CellId) (old_name new_name : String) :
    Option Design :=
  match getCell d cell with
  | none => none
  | some ci =>
    match lookupA old_name ci.ports with
    | none => some d
    | some pi =>
      let pi' : PortInfo := { pi with name := new_name }
      match pi.net with
      | none =>
        some (setCell d cell
          { ci with ports := (insertA new_name pi' (eraseA old_name ci.ports)) })
      | some nid =>
        match getNet d nid with
        | none => none
        | some n =>
          let n1 :=
            if n.driver.cell = some cell ∧ n.driver.port = old_name then
              { n with driver := { n.driver with port := new_name } }
            else n
          let n2 := { n1 with users := n1.users.map (fun u =>
            if u.cell = some cell ∧ u.port = old_name then { u with port := new_name }
            else u) }
          some (setCell (setNet d nid n2) cell
            { ci with ports := (insertA new_name pi' (eraseA old_name ci.ports)) })

/-- rename_net (design_utils.cc lines 159-167). A null net is a no-op; an
existing entry under new_name in ctx->nets is a fatal assertion. The
source's swap of the two unique_ptr slots followed by erasing the old slot
moves the stored net from its current name to new_name; the model's store
holds no null entries, so the move is an insert of the new slot plus an
erase of the old one. -/
def rename_net (d : Design) (net : Option NetId) (new_name : String) :
    Option Design :=
  match net with
  | none => some d
  | some nid =>
    match getNet d nid with
    | none => none
    | some n =>
      match lookupA new_name d.nets with
      | some _ => none
      | none =>
        let d1 := { d with nets := insertA new_name nid (eraseA n.name d.nets) }
        some (setNet d1 nid { n with name := new_name })

/-- The indexed port name of a bus, from the source's
stringf(brackets ? following : flat, name, i + offset). -/
def busName (brackets : Bool) (base : String) (idx : Int) : String :=
  if brackets then base ++ "[" ++ toString idx ++ "]" else base ++ toString idx

/-- replace_bus (design_utils.cc lines 169-177): the loop for i in
[0, width) over replace_port of the indexed names. A fatal assertion in
one iteration aborts the whole call (none), as an NPNR_ASSERT terminates
the process. -/
def replace_bus (d : Design) (old_cell : CellId) (old_name : String)
    (old_offset : Int) (old_brackets : Bool) (new_cell : CellId)
    (new_name : String) (new_offset : Int) (new_brackets : Bool)
    (width : Int) : Option Design :=
  (List.range width.toNat).foldl
    (fun acc (i : Nat) =>
      match acc with
      | none => none
      | some d' =>
        replace_port d' old_cell (busName old_brackets old_name (Int.ofNat i + old_offset))
          new_cell (busName new_brackets new_name (Int.ofNat i + new_offset)))
    (some d)

/-! ### Replication primitive, translated from design_utils.cc -/

/-- copy_port (design_utils.cc lines 179-186). A missing source port is a
no-op. Otherwise the new port entry is created (or, when it already
exists, its name and type fields are overwritten, its net kept — the
source's operator[] followed by field assignments), and connect_port
attaches it to the source port's net, re-read after the port writes. -/
def copy_port (d : Design) (old_cell : CellId) (old_name : String)
    (new_cell : CellId) (new_name : String) : Option Design :=
  match getCell d old_cell with
  | none => none
  | some oc =>
    match lookupA old_name oc.ports with
    | none => some d
    | some _ =>
      match getCell d new_cell with
      | none => none
      | some nc =>
        let p0 :=
          match lookupA new_name nc.ports with
          | some pp => pp
          | none => { name := "", type := PortType.PORT_IN, net := none }
        let d1 := setPort d new_cell new_name { p0 with name := new_name }
        match getPort d1 old_cell old_name with
        | none => none
        | some op1 =>
          match getPort d1 new_cell new_name with
          | none => none
          | some np1 =>
            let d2 := setPort d1 new_cell new_name { np1 with type := op1.type }
            match getPort d2 old_cell old_name with
            | none => none
            | some op2 => connect_port d2 op2.net new_cell new_name

/-! ### Frame lemmas for the state accessors -/

section Frames

variable (d : Design)

@[simp] theorem getNet_setCell (c : CellId) (ci : CellInfo) (k : NetId) :
    getNet (setCell d c ci) k = getNet d k := rfl

@[simp] theorem getCell_setNet (k : NetId) (n : NetInfo) (c : CellId) :
    getCell (setNet d k n) c = getCell d c := rfl

@[simp] theorem getNet_setPort (c : CellId) (p : String) (pi : PortInfo) (k : NetId) :
    getNet (setPort d c p pi) k = getNet d k := by
  unfold setPort
  cases getCell d c <;> rfl

@[simp] theorem getPort_setNet (k : NetId) (n : NetInfo) (c : CellId) (p : String) :
    getPort (setNet d k n) c p = getPort d c p := rfl

@[simp] theorem getNet_setNet_self (k : NetId) (n : NetInfo) :
    getNet (setNet d k n) k = some n := by
  simp [getNet, setNet]

theorem getNet_setNet_ne {k k' : NetId} (n : NetInfo) (h : k' ≠ k) :
    getNet (setNet d k n) k' = getNet d k' := by
  simp [getNet, setNet, lookupA_insertA_ne _ _ h]

@[simp] theorem getCell_setCell_self (c : CellId) (ci : CellInfo) :
    getCell (setCell d c ci) c = some ci := by
  simp [getCell, setCell]

theorem getCell_setCell_ne {c c' : CellId} (ci : CellInfo) (h : c' ≠ c) :
    getCell (setCell d c ci) c' = getCell d c' := by
  simp [getCell, setCell, lookupA_insertA_ne _ _ h]

theorem getCell_setPort_of_eq {c : CellId} {ci : CellInfo} (p : String) (pi : PortInfo)
    (h : getCell d c = some ci) :
    getCell (setPort d c p pi) c = some { ci with ports := insertA p pi ci.ports } := by
  simp [setPort, h]

theorem getCell_setPort_ne {c c' : CellId} (p : String) (pi : PortInfo) (h : c' ≠ c) :
    getCell (setPort d c p pi) c' = getCell d c' := by
  unfold setPort
  cases getCell d c with
  | none => rfl
  | some ci => exact getCell_setCell_ne d _ h

theorem getCell_isSome_setPort (c' c : CellId) (p : String) (pi : PortInfo) :
    (getCell (setPort d c p pi) c').isSome = (getCell d c').isSome := by
  unfold setPort
  cases hc : getCell d c with
  | none => rfl
  | some ci =>
    by_cases h : c' = c
    · subst h
      simp [hc]
    · simp [getCell_setCell_ne _ _ h]

theorem getPort_setPort_self {c : CellId} (p : String) (pi : PortInfo)
    (h : (getCell d c).isSome) :
    getPort (setPort d c p pi) c p = some pi := by
  unfold getPort
  cases hc : getCell d c with
  | none => simp [hc] at h
  | some ci => simp [getCell_setPort_of_eq d p pi hc]

theorem getPort_setPort_ne {c c' : CellId} {p p' : String} (pi : PortInfo)
    (h : ¬ (c' = c ∧ p' = p)) :
    getPort (setPort d c p pi) c' p' = getPort d c' p' := by
  by_cases hc : c' = c
  · subst hc
    have hp : p' ≠ p := fun hp => h ⟨rfl, hp⟩
    unfold getPort
    cases hcc : getCell d c' with
    | none =>
      have hnop : setPort d c' p pi = d := by simp [setPort, hcc]
      simp [hnop, hcc]
    | some ci =>
      simp [getCell_setPort_of_eq d p pi hcc, hcc, lookupA_insertA_ne _ _ hp]
  · unfold getPort
    rw [getCell_setPort_ne d p pi hc]

theorem setPort_eq_self {c : CellId} {p : String} {pi : PortInfo}
    (h : getPort d c p = some pi) : setPort d c p pi = d := by
  unfold getPort at h
  cases hc : getCell d c with
  | none => simp [hc] at h
  | some ci =>
    simp only [hc] at h
    simp [setPort, hc, insertA_of_lookupA_eq h, setCell,
      insertA_of_lookupA_eq (show lookupA c d.cellHeap = some ci from hc)]

theorem setPort_setPort_same (c : CellId) (p : String) (v1 v2 : PortInfo) :
    setPort (setPort d c p v1) c p v2 = setPort d c p v2 := by
  cases hc : getCell d c with
  | none => simp [setPort, hc]
  | some ci =>
    have h1 : setPort d c p v1 = setCell d c { ci with ports := insertA p v1 ci.ports } := by
      simp [setPort, hc]
    have h2 : setPort d c p v2 = setCell d c { ci with ports := insertA p v2 ci.ports } := by
      simp [setPort, hc]
    rw [h1, h2]
    simp [setPort, getCell, setCell, insertA_insertA_same]

@[simp] theorem cells_setPort (c : CellId) (p : String) (pi : PortInfo) :
    (setPort d c p pi).cells = d.cells := by
  unfold setPort
  cases getCell d c <;> rfl

@[simp] theorem nets_setPort (c : CellId) (p : String) (pi : PortInfo) :
    (setPort d c p pi).nets = d.nets := by
  unfold setPort
  cases getCell d c <;> rfl

@[simp] theorem cells_setNet (k : NetId) (n : NetInfo) :
    (setNet d k n).cells = d.cells := rfl

@[simp] theorem nets_setNet (k : NetId) (n : NetInfo) :
    (setNet d k n).nets = d.nets := rfl

end Frames

/-- connect_port never touches the two Graph Store dictionaries. -/
theorem connect_port_stores (d : Design) (net : Option NetId) (c : CellId)
    (p : String) {d' : Design} (h : connect_port d net c p = some d') :
    d'.cells = d.cells ∧ d'.nets = d.nets := by
  unfold connect_port at h
  cases net with
  | none => cases h; exact ⟨rfl, rfl⟩
  | some nid =>
    cases hc : getCell d c with
    | none => simp [hc] at h
    | some ci =>
      simp only [hc] at h
      cases hp : lookupA p ci.ports with
      | none => simp [hp] at h
      | some port =>
        simp only [hp] at h
        cases hn : port.net with
        | some m => simp [hn] at h
        | none =>
          simp only [hn] at h
          cases hg : getNet (setPort d c p { port with net := some nid }) nid with
          | none => simp [hg] at h
          | some n =>
            simp only [hg] at h
            cases ht : port.type with
            | PORT_OUT =>
              simp only [ht] at h
              cases hd : n.driver.cell with
              | some k => simp [hd] at h
              | none =>
                simp only [hd, Option.some.injEq] at h
                subst h
                simp
            | PORT_IN =>
              simp only [ht, Option.some.injEq] at h
              subst h
              simp
            | PORT_INOUT =>
              simp only [ht, Option.some.injEq] at h
              subst h
              simp

/-! ### Characterisation of connect_port -/

section ConnectPortChar

variable {d : Design} {c : CellId} {p : String} {ci : CellInfo} {port : PortInfo}
variable {nid : NetId} {n : NetInfo}

theorem connect_port_missing_port (nid : NetId) (hc : getCell d c = some ci)
    (hp : lookupA p ci.ports = none) :
    connect_port d (some nid) c p = none := by
  simp [connect_port, hc, hp]

theorem connect_port_already_connected (nid : NetId) (hc : getCell d c = some ci)
    (hp : lookupA p ci.ports = some port) {m : NetId} (hn : port.net = some m) :
    connect_port d (some nid) c p = none := by
  simp [connect_port, hc, hp, hn]

theorem connect_port_second_driver (hc : getCell d c = some ci)
    (hp : lookupA p ci.ports = some port) (hpn : port.net = none)
    (ht : port.type = PortType.PORT_OUT) (hg : getNet d nid = some n)
    {k : CellId} (hd : n.driver.cell = some k) :
    connect_port d (some nid) c p = none := by
  simp [connect_port, hc, hp, hpn, ht, hg, hd]

theorem connect_port_out_eq (hc : getCell d c = some ci)
    (hp : lookupA p ci.ports = some port) (hpn : port.net = none)
    (ht : port.type = PortType.PORT_OUT) (hg : getNet d nid = some n)
    (hd : n.driver.cell = none) :
    connect_port d (some nid) c p =
      some (setNet (setPort d c p { port with net := some nid }) nid
        { n with driver := { cell := some c, port := p } }) := by
  simp [connect_port, hc, hp, hpn, ht, hg, hd]

theorem connect_port_user_eq (hc : getCell d c = some ci)
    (hp : lookupA p ci.ports = some port) (hpn : port.net = none)
    (ht : port.type = PortType.PORT_IN ∨ port.type = PortType.PORT_INOUT)
    (hg : getNet d nid = some n) :
    connect_port d (some nid) c p =
      some (setNet (setPort d c p { port with net := some nid }) nid
        { n with users := n.users ++ [{ cell := some c, port := p }] }) := by
  rcases ht with ht | ht <;> simp [connect_port, hc, hp, hpn, ht, hg]

end ConnectPortChar

/-! ### Characterisation of disconnect_port -/

section DisconnectPortChar

variable {d : Design} {c : CellId} {p : String} {ci : CellInfo} {port : PortInfo}
variable {nid : NetId} {n : NetInfo}

theorem disconnect_port_no_port (hc : getCell d c = some ci)
    (hp : lookupA p ci.ports = none) : disconnect_port d c p = some d := by
  simp [disconnect_port, hc, hp]

theorem disconnect_port_unconnected (hc : getCell d c = some ci)
    (hp : lookupA p ci.ports = some port) (hpn : port.net = none) :
    disconnect_port d c p = some d := by
  simp [disconnect_port, hc, hp, hpn]

theorem disconnect_port_eq (hc : getCell d c = some ci)
    (hp : lookupA p ci.ports = some port) (hpn : port.net = some nid)
    (hg : getNet d nid = some n) :
    disconnect_port d c p =
      some (setPort (setNet d nid (pruneNet c p n)) c p { port with net := none }) := by
  simp [disconnect_port, hc, hp, hpn, hg]

/-- After pruning, the driver never refers to (c, p). -/
theorem pruneNet_driver_not (c : CellId) (p : String) (n : NetInfo) :
    ¬ ((pruneNet c p n).driver.cell = some c ∧ (pruneNet c p n).driver.port = p) := by
  unfold pruneNet
  by_cases h : n.driver.cell = some c ∧ n.driver.port = p
  · simp [h]
  · simp only [if_neg h]
    exact h

/-- After pruning, no user entry refers to (c, p). -/
theorem pruneNet_users_not (c : CellId) (p : String) (n : NetInfo) :
    ∀ u ∈ (pruneNet c p n).users, ¬ (u.cell = some c ∧ u.port = p) := by
  intro u hu
  have hr : refIs c p u = false := by
    unfold pruneNet at hu
    by_cases h : n.driver.cell = some c ∧ n.driver.port = p <;> simp [h] at hu <;>
      exact hu.2
  intro hcontra
  simp [refIs, hcontra] at hr

end DisconnectPortChar

/-! ### Characterisation of replace_port -/

theorem PortInfo.eta_net (p : PortInfo) : { p with net := p.net } = p := by
  cases p
  rfl

section ReplacePortChar

variable {d : Design} {oc rc : CellId} {onm rn : String} {ocell rcell : CellInfo}
variable {old0 rep0 : PortInfo} {d1 : Design}

theorem replace_port_no_port (hoc : getCell d oc = some ocell)
    (hop : lookupA onm ocell.ports = none) :
    replace_port d oc onm rc rn = some d := by
  simp [replace_port, hoc, hop]

theorem replace_port_type_mismatch (hoc : getCell d oc = some ocell)
    (hop : lookupA onm ocell.ports = some old0)
    (hrc : getCell d rc = some rcell)
    (hrep : lookupA rn rcell.ports = some rep0)
    (hty : ¬ old0.type = rep0.type) :
    replace_port d oc onm rc rn = none := by
  have hold1 : getPort d oc onm = some old0 := by simp [getPort, hoc, hop]
  have hrep1 : getPort d rc rn = some rep0 := by simp [getPort, hrc, hrep]
  simp [replace_port, hoc, hop, hrc, hrep, hold1, hrep1, hty]

theorem replaceTail_noop {d3 : Design} {oc rc : CellId} {onm rn : String}
    (rep2 : PortInfo) (hN : rep2.net = none)
    (hT : ¬ rep2.type = PortType.PORT_INOUT) :
    replaceTail d3 oc onm rc rn rep2 = some d3 := by
  unfold replaceTail
  cases ht : rep2.type with
  | PORT_OUT => simp [hN]
  | PORT_IN => simp [hN]
  | PORT_INOUT => exact absurd ht hT

theorem replaceTail_inout {d3 : Design} {oc rc : CellId} {onm rn : String}
    (rep2 : PortInfo) (hT : rep2.type = PortType.PORT_INOUT) :
    replaceTail d3 oc onm rc rn rep2 = none := by
  unfold replaceTail
  simp [hT]

theorem replaceTail_dangling {d3 : Design} {oc rc : CellId} {onm rn : String}
    {nid : NetId} (rep2 : PortInfo) (hN : rep2.net = some nid)
    (hg : getNet d3 nid = none) (hT : ¬ rep2.type = PortType.PORT_INOUT) :
    replaceTail d3 oc onm rc rn rep2 = none := by
  unfold replaceTail
  cases ht : rep2.type with
  | PORT_OUT => simp [hN, hg]
  | PORT_IN => simp [hN, hg]
  | PORT_INOUT => exact absurd ht hT

theorem replaceTail_out {d3 : Design} {oc rc : CellId} {onm rn : String}
    {nid : NetId} {n : NetInfo}
    (rep2 : PortInfo) (hT : rep2.type = PortType.PORT_OUT) (hN : rep2.net = some nid)
    (hg : getNet d3 nid = some n) :
    replaceTail d3 oc onm rc rn rep2 =
      some (setNet d3 nid { n with driver := { cell := some rc, port := rn } }) := by
  unfold replaceTail
  simp [hT, hN, hg]

theorem replaceTail_in {d3 : Design} {oc rc : CellId} {onm rn : String}
    {nid : NetId} {n : NetInfo}
    (rep2 : PortInfo) (hT : rep2.type = PortType.PORT_IN) (hN : rep2.net = some nid)
    (hg : getNet d3 nid = some n) :
    replaceTail d3 oc onm rc rn rep2 =
      some (setNet d3 nid { n with users := n.users.map (fun load =>
        if load.cell = some oc ∧ load.port = onm then
          { cell := some rc, port := rn }
        else load) }) := by
  unfold replaceTail
  simp [hT, hN, hg]

/-- The non-aliased shape: with the old port present, the replacement port
present (d1 = d) or freshly created, and the directions matching, the call
is the replaceTail dispatch over the state holding the transferred net on
the replacement port and a cleared old port. -/
theorem replace_port_shape_ne (hoc : getCell d oc = some ocell)
    (hop : lookupA onm ocell.ports = some old0)
    (hrc : getCell d rc = some rcell)
    (hrep : (lookupA rn rcell.ports = some rep0 ∧ d1 = d) ∨
            (lookupA rn rcell.ports = none ∧
             rep0 = { name := rn, type := old0.type, net := none } ∧
             d1 = setPort d rc rn { name := rn, type := old0.type, net := none }))
    (hne : ¬ (oc = rc ∧ onm = rn))
    (htype : old0.type = rep0.type) :
    replace_port d oc onm rc rn =
      replaceTail
        (setPort (setPort d1 rc rn { rep0 with net := old0.net }) oc onm
          { old0 with net := none })
        oc onm rc rn { rep0 with net := old0.net } := by
  have hne' : ¬ (rc = oc ∧ rn = onm) := fun h => hne ⟨h.1.symm, h.2.symm⟩
  have hold1 : getPort d1 oc onm = some old0 := by
    rcases hrep with ⟨_, hd1⟩ | ⟨_, _, hd1⟩
    · rw [hd1]
      simp [getPort, hoc, hop]
    · rw [hd1, getPort_setPort_ne _ _ hne]
      simp [getPort, hoc, hop]
  have hrep1 : getPort d1 rc rn = some rep0 := by
    rcases hrep with ⟨hlk, hd1⟩ | ⟨hlk, hval, hd1⟩
    · rw [hd1]
      simp [getPort, hrc, hlk]
    · rw [hd1, hval]
      exact getPort_setPort_self _ _ _ (by simp [hrc])
  have hd1rc : (getCell d1 rc).isSome := by
    rcases hrep with ⟨_, hd1⟩ | ⟨_, _, hd1⟩ <;> rw [hd1] <;>
      simp [getCell_isSome_setPort, hrc]
  have hold2 : getPort (setPort d1 rc rn { rep0 with net := old0.net }) oc onm =
      some old0 := by
    rw [getPort_setPort_ne _ _ hne]
    exact hold1
  have hrep2 : getPort (setPort (setPort d1 rc rn { rep0 with net := old0.net }) oc onm
      { old0 with net := none }) rc rn = some { rep0 with net := old0.net } := by
    rw [getPort_setPort_ne _ _ hne']
    exact getPort_setPort_self _ _ _ hd1rc
  unfold replace_port
  rcases hrep with ⟨hlk, hd1⟩ | ⟨hlk, hval, hd1⟩
  · rw [hd1] at hold1 hrep1 hold2 hrep2
    simp only [hoc, hop, hrc, hlk, hold1, hrep1, if_pos htype, hold2, hrep2, hd1]
  · rw [hd1] at hold1 hrep1 hold2 hrep2
    rw [hval] at htype hrep1 hold2 hrep2 ⊢
    simp only [hoc, hop, hrc, hlk, hold1, hrep1, if_pos htype, hold2, hrep2, hd1]
    simp

/-- The aliased shape: replacing a port by itself clears its net reference
and dispatches replaceTail on the cleared port (whose net is null, so the
tail is a no-op for OUT and IN and fatal for INOUT). -/
theorem replace_port_shape_alias (hoc : getCell d oc = some ocell)
    (hop : lookupA onm ocell.ports = some old0) :
    replace_port d oc onm oc onm =
      replaceTail (setPort d oc onm { old0 with net := none }) oc onm oc onm
        { old0 with net := none } := by
  have hsome : (getCell d oc).isSome := by simp [hoc]
  have hold1 : getPort d oc onm = some old0 := by simp [getPort, hoc, hop]
  have heta : ({ old0 with net := old0.net } : PortInfo) = old0 := PortInfo.eta_net old0
  have hold2 : getPort (setPort d oc onm { old0 with net := old0.net }) oc onm =
      some old0 := by
    rw [heta]
    exact getPort_setPort_self _ _ _ hsome
  have hd3 : setPort (setPort d oc onm { old0 with net := old0.net }) oc onm
      { old0 with net := none } = setPort d oc onm { old0 with net := none } :=
    setPort_setPort_same _ _ _ _ _
  have hrep2 : getPort (setPort d oc onm { old0 with net := none }) oc onm =
      some { old0 with net := none } := getPort_setPort_self _ _ _ hsome
  unfold replace_port
  simp only [hoc, hop, hold1, if_pos rfl, hold2, hd3, hrep2]
  simp

end ReplacePortChar

/-! ### Concrete designs used by witnesses and counterexamples -/

/-- Cell 0 has an unconnected OUT port, an unconnected IN port and an IN
port already connected to net 5; cell 1 has an unconnected IN port.
Net 5 is empty, net 6 already has a driver. -/
def exW : Design :=
  { cells := [("W0", 0), ("W1", 1)]
  , nets := [("wn", 5), ("wd", 6)]
  , cellHeap :=
      [ (0, { name := "W0", ports :=
          [ ("o", { name := "o", type := PortType.PORT_OUT, net := none })
          , ("i", { name := "i", type := PortType.PORT_IN, net := none })
          , ("c", { name := "c", type := PortType.PORT_IN, net := some 5 }) ] })
      , (1, { name := "W1", ports :=
          [ ("o2", { name := "o2", type := PortType.PORT_OUT, net := none })
          , ("io", { name := "io", type := PortType.PORT_INOUT, net := none }) ] }) ]
  , netHeap :=
      [ (5, { name := "wn", driver := { cell := none, port := "" }, users := [{ cell := some 0, port := "c" }] })
      , (6, { name := "wd", driver := { cell := some 9, port := "q" }, users := [] }) ] }

/-- Cell 2 drives net 8 through its OUT port src; cell 3 has no ports. -/
def exWD : Design :=
  { cells := [("S", 2), ("T", 3)]
  , nets := [("dn", 8)]
  , cellHeap :=
      [ (2, { name := "S", ports :=
          [("src", { name := "src", type := PortType.PORT_OUT, net := some 8 })] })
      , (3, { name := "T", ports := [] }) ]
  , netHeap :=
      [ (8, { name := "dn", driver := { cell := some 2, port := "src" }, users := [] }) ] }

/-! ### C5 -/

/-- C5: connect(net, cell, port). Net absent: no-op leaving the graph
unchanged. Otherwise the precondition is that the port exists on the cell
and is unconnected; violating either is a fatal contract violation (none),
never silently tolerated. When the precondition holds: for an OUT port the
net must currently have no driver (fatal otherwise) and the port is
installed as the net's driver; for IN or INOUT a user entry (cell, port)
is appended to the net's user list. -/
theorem connect_port_contract :
    (∀ (d : Design) (c : CellId) (p : String), connect_port d none c p = some d) ∧
    (∀ (d : Design) (c : CellId) (p : String) (nid : NetId) (ci : CellInfo),
      getCell d c = some ci → lookupA p ci.ports = none →
      connect_port d (some nid) c p = none) ∧
    (∀ (d : Design) (c : CellId) (p : String) (nid m : NetId) (ci : CellInfo)
      (port : PortInfo),
      getCell d c = some ci → lookupA p ci.ports = some port → port.net = some m →
      connect_port d (some nid) c p = none) ∧
    (∀ (d : Design) (c : CellId) (p : String) (nid : NetId) (ci : CellInfo)
      (port : PortInfo) (n : NetInfo),
      getCell d c = some ci → lookupA p ci.ports = some port → port.net = none →
      getNet d nid = some n → port.type = PortType.PORT_OUT →
      ((∀ k, n.driver.cell = some k → connect_port d (some nid) c p = none) ∧
       (n.driver.cell = none → ∃ d', connect_port d (some nid) c p = some d' ∧
          getPort d' c p = some { port with net := some nid } ∧
          getNet d' nid = some { n with driver := { cell := some c, port := p } } ∧
          (∀ c' p', ¬ (c' = c ∧ p' = p) → getPort d' c' p' = getPort d c' p') ∧
          (∀ m, m ≠ nid → getNet d' m = getNet d m) ∧
          d'.cells = d.cells ∧ d'.nets = d.nets))) ∧
    (∀ (d : Design) (c : CellId) (p : String) (nid : NetId) (ci : CellInfo)
      (port : PortInfo) (n : NetInfo),
      getCell d c = some ci → lookupA p ci.ports = some port → port.net = none →
      getNet d nid = some n →
      (port.type = PortType.PORT_IN ∨ port.type = PortType.PORT_INOUT) →
      ∃ d', connect_port d (some nid) c p = some d' ∧
        getPort d' c p = some { port with net := some nid } ∧
        getNet d' nid = some { n with users := n.users ++ [{ cell := some c, port := p }] } ∧
        (∀ c' p', ¬ (c' = c ∧ p' = p) → getPort d' c' p' = getPort d c' p') ∧
        (∀ m, m ≠ nid → getNet d' m = getNet d m) ∧
        d'.cells = d.cells ∧ d'.nets = d.nets) := by
  refine ⟨fun d c p => rfl, ?_, ?_, ?_, ?_⟩
  · intro d c p nid ci hc hp
    exact connect_port_missing_port nid hc hp
  · intro d c p nid m ci port hc hp hn
    exact connect_port_already_connected nid hc hp hn
  · intro d c p nid ci port n hc hp hpn hg ht
    constructor
    · intro k hk
      exact connect_port_second_driver hc hp hpn ht hg hk
    · intro hd
      refine ⟨_, connect_port_out_eq hc hp hpn ht hg hd, ?_, ?_, ?_, ?_, ?_, ?_⟩
      · rw [getPort_setNet, getPort_setPort_self _ _ _ (by simp [hc])]
      · simp
      · intro c' p' hne
        rw [getPort_setNet, getPort_setPort_ne _ _ hne]
      · intro m hm
        rw [getNet_setNet_ne _ _ hm, getNet_setPort]
      · simp
      · simp
  · intro d c p nid ci port n hc hp hpn hg ht
    refine ⟨_, connect_port_user_eq hc hp hpn ht hg, ?_, ?_, ?_, ?_, ?_, ?_⟩
    · rw [getPort_setNet, getPort_setPort_self _ _ _ (by simp [hc])]
    · simp
    · intro c' p' hne
      rw [getPort_setNet, getPort_setPort_ne _ _ hne]
    · intro m hm
      rw [getNet_setNet_ne _ _ hm, getNet_setPort]
    · simp
    · simp

/-- C5 witness: the contract evaluated on the concrete design exW. -/
theorem connect_port_contract_witness :
    connect_port exW none 0 "o" = some exW ∧
    connect_port exW (some 5) 0 "zz" = none ∧
    connect_port exW (some 5) 0 "c" = none ∧
    connect_port exW (some 6) 0 "o" = none ∧
    (connect_port exW (some 5) 0 "o").bind (fun d' => getNet d' 5) =
      some { name := "wn", driver := { cell := some 0, port := "o" },
             users := [{ cell := some 0, port := "c" }] } ∧
    (connect_port exW (some 5) 0 "i").bind (fun d' => getNet d' 5) =
      some { name := "wn", driver := { cell := none, port := "" },
             users := [{ cell := some 0, port := "c" }, { cell := some 0, port := "i" }] } := by
  have h1 := connect_port_contract.1 exW 0 "o"
  have h2 := connect_port_contract.2.1 exW 0 "zz" 5
    { name := "W0", ports :=
        [ ("o", { name := "o", type := PortType.PORT_OUT, net := none })
        , ("i", { name := "i", type := PortType.PORT_IN, net := none })
        , ("c", { name := "c", type := PortType.PORT_IN, net := some 5 }) ] }
    (by decide) (by decide)
  have h3 := connect_port_contract.2.2.1 exW 0 "c" 5 5
    { name := "W0", ports :=
        [ ("o", { name := "o", type := PortType.PORT_OUT, net := none })
        , ("i", { name := "i", type := PortType.PORT_IN, net := none })
        , ("c", { name := "c", type := PortType.PORT_IN, net := some 5 }) ] }
    { name := "c", type := PortType.PORT_IN, net := some 5 }
    (by decide) (by decide) (by decide)
  have h4 := (connect_port_contract.2.2.2.1 exW 0 "o" 6
    { name := "W0", ports :=
        [ ("o", { name := "o", type := PortType.PORT_OUT, net := none })
        , ("i", { name := "i", type := PortType.PORT_IN, net := none })
        , ("c", { name := "c", type := PortType.PORT_IN, net := some 5 }) ] }
    { name := "o", type := PortType.PORT_OUT, net := none }
    { name := "wd", driver := { cell := some 9, port := "q" }, users := [] }
    (by decide) (by decide) (by decide) (by decide) (by decide)).1 9 (by decide)
  obtain ⟨d5, hd5, _, hn5, _⟩ := (connect_port_contract.2.2.2.1 exW 0 "o" 5
    { name := "W0", ports :=
        [ ("o", { name := "o", type := PortType.PORT_OUT, net := none })
        , ("i", { name := "i", type := PortType.PORT_IN, net := none })
        , ("c", { name := "c", type := PortType.PORT_IN, net := some 5 }) ] }
    { name := "o", type := PortType.PORT_OUT, net := none }
    { name := "wn", driver := { cell := none, port := "" },
      users := [{ cell := some 0, port := "c" }] }
    (by decide) (by decide) (by decide) (by decide) (by decide)).2 (by decide)
  obtain ⟨d6, hd6, _, hn6, _⟩ := connect_port_contract.2.2.2.2 exW 0 "i" 5
    { name := "W0", ports :=
        [ ("o", { name := "o", type := PortType.PORT_OUT, net := none })
        , ("i", { name := "i", type := PortType.PORT_IN, net := none })
        , ("c", { name := "c", type := PortType.PORT_IN, net := some 5 }) ] }
    { name := "i", type := PortType.PORT_IN, net := none }
    { name := "wn", driver := { cell := none, port := "" },
      users := [{ cell := some 0, port := "c" }] }
    (by decide) (by decide) (by decide) (by decide) (Or.inl (by decide))
  refine ⟨h1, h2, h3, h4, ?_, ?_⟩
  · rw [hd5]
    simpa using hn5
  · rw [hd6]
    simpa using hn6

/-! ### C6 -/

/-- C6: for every net N and unconnected port P, connect(N, P) followed by
disconnect(P) restores P's net reference to absent and leaves N with no
driver entry and no user entry referring to P. -/
theorem connect_disconnect_roundtrip :
    ∀ (d : Design) (c : CellId) (p : String) (nid : NetId) (ci : CellInfo)
      (port : PortInfo) (n : NetInfo) (d1 : Design),
    getCell d c = some ci → lookupA p ci.ports = some port → port.net = none →
    getNet d nid = some n →
    connect_port d (some nid) c p = some d1 →
    ∃ d2, disconnect_port d1 c p = some d2 ∧
      (∃ pi, getPort d2 c p = some pi ∧ pi.net = none) ∧
      (∃ n2, getNet d2 nid = some n2 ∧
        ¬ (n2.driver.cell = some c ∧ n2.driver.port = p) ∧
        ∀ u ∈ n2.users, ¬ (u.cell = some c ∧ u.port = p)) := by
  intro d c p nid ci port n d1 hc hp hpn hg hconn
  have hsome : (getCell d c).isSome := by simp [hc]
  -- d1 is setNet (setPort d c p port1) nid n1 for some n1, in every branch.
  have hshape : ∃ n1, d1 = setNet (setPort d c p { port with net := some nid }) nid n1 := by
    cases ht : port.type with
    | PORT_OUT =>
      cases hd : n.driver.cell with
      | some k =>
        rw [connect_port_second_driver hc hp hpn ht hg hd] at hconn
        cases hconn
      | none =>
        rw [connect_port_out_eq hc hp hpn ht hg hd, ht] at hconn
        exact ⟨_, (Option.some_inj.mp hconn).symm⟩
    | PORT_IN =>
      rw [connect_port_user_eq hc hp hpn (Or.inl ht) hg, ht] at hconn
      exact ⟨_, (Option.some_inj.mp hconn).symm⟩
    | PORT_INOUT =>
      rw [connect_port_user_eq hc hp hpn (Or.inr ht) hg, ht] at hconn
      exact ⟨_, (Option.some_inj.mp hconn).symm⟩
  obtain ⟨n1, rfl⟩ := hshape
  have hc1 : getCell (setNet (setPort d c p { port with net := some nid }) nid n1) c =
      some { ci with ports := insertA p { port with net := some nid } ci.ports } := by
    rw [getCell_setNet, getCell_setPort_of_eq d p _ hc]
  have hp1 : lookupA p (insertA p { port with net := some nid } ci.ports) =
      some { port with net := some nid } := lookupA_insertA_self _ _ _
  have hg1 : getNet (setNet (setPort d c p { port with net := some nid }) nid n1) nid =
      some n1 := getNet_setNet_self _ _ _
  refine ⟨_, disconnect_port_eq hc1 hp1 rfl hg1, ?_, ?_⟩
  · refine ⟨{ port with net := none }, ?_, rfl⟩
    rw [getPort_setPort_self _ _ _ (by simp [hc1])]
  · refine ⟨pruneNet c p n1, ?_, pruneNet_driver_not c p n1, pruneNet_users_not c p n1⟩
    rw [getNet_setPort, getNet_setNet_self]

/-- C6 witness: round trip on the concrete design exW, for an OUT and an
IN port. -/
theorem connect_disconnect_roundtrip_witness :
    ((connect_port exW (some 5) 0 "o").bind (fun d1 => disconnect_port d1 0 "o")).bind
      (fun d2 => (getPort d2 0 "o").map PortInfo.net) = some none ∧
    ((connect_port exW (some 5) 0 "i").bind (fun d1 => disconnect_port d1 0 "i")).bind
      (fun d2 => getNet d2 5) =
      some { name := "wn", driver := { cell := none, port := "" },
             users := [{ cell := some 0, port := "c" }] } := by
  have h1 := connect_disconnect_roundtrip exW 0 "o" 5
    { name := "W0", ports :=
        [ ("o", { name := "o", type := PortType.PORT_OUT, net := none })
        , ("i", { name := "i", type := PortType.PORT_IN, net := none })
        , ("c", { name := "c", type := PortType.PORT_IN, net := some 5 }) ] }
    { name := "o", type := PortType.PORT_OUT, net := none }
    { name := "wn", driver := { cell := none, port := "" },
      users := [{ cell := some 0, port := "c" }] }
    ((connect_port exW (some 5) 0 "o").get (by decide))
    (by decide) (by decide) (by decide) (by decide)
    (by simp)
  have h2 := connect_disconnect_roundtrip exW 0 "i" 5
    { name := "W0", ports :=
        [ ("o", { name := "o", type := PortType.PORT_OUT, net := none })
        , ("i", { name := "i", type := PortType.PORT_IN, net := none })
        , ("c", { name := "c", type := PortType.PORT_IN, net := some 5 }) ] }
    { name := "i", type := PortType.PORT_IN, net := none }
    { name := "wn", driver := { cell := none, port := "" },
      users := [{ cell := some 0, port := "c" }] }
    ((connect_port exW (some 5) 0 "i").get (by decide))
    (by decide) (by decide) (by decide) (by decide)
    (by simp)
  constructor
  · revert h1
    decide
  · revert h2
    decide

/-! ### C10 -/

/-- C10: disconnect is total over port names and idempotent. If the cell
has no port of the given name the graph is unchanged, and a second
disconnect of the same (cell, port name) leaves the state of the first
one unchanged. -/
theorem disconnect_port_idempotent :
    ∀ (d : Design) (c : CellId) (p : String) (ci : CellInfo),
    getCell d c = some ci →
    (∀ port, lookupA p ci.ports = some port →
      ∀ nid, port.net = some nid → (getNet d nid).isSome) →
    (lookupA p ci.ports = none → disconnect_port d c p = some d) ∧
    (∃ d1, disconnect_port d c p = some d1 ∧ disconnect_port d1 c p = some d1) := by
  intro d c p ci hc hres
  cases hp : lookupA p ci.ports with
  | none =>
    exact ⟨fun _ => disconnect_port_no_port hc hp,
      ⟨d, disconnect_port_no_port hc hp, disconnect_port_no_port hc hp⟩⟩
  | some port =>
    refine ⟨fun h => Option.noConfusion h, ?_⟩
    cases hpn : port.net with
    | none =>
      exact ⟨d, disconnect_port_unconnected hc hp hpn,
        disconnect_port_unconnected hc hp hpn⟩
    | some nid =>
      have hg : (getNet d nid).isSome := hres port hp nid hpn
      cases hgn : getNet d nid with
      | none => rw [hgn] at hg; cases hg
      | some n =>
        refine ⟨_, disconnect_port_eq hc hp hpn hgn, ?_⟩
        have hc1 : getCell (setPort (setNet d nid (pruneNet c p n)) c p
            { port with net := none }) c =
            some { ci with ports := insertA p { port with net := none } ci.ports } := by
          rw [getCell_setPort_of_eq _ _ _ (by rw [getCell_setNet]; exact hc)]
        exact disconnect_port_unconnected hc1 (lookupA_insertA_self _ _ _) rfl

/-- C10 witness: idempotence evaluated on exW for a missing port, an
unconnected port and a connected port. -/
theorem disconnect_port_idempotent_witness :
    disconnect_port exW 0 "zz" = some exW ∧
    (disconnect_port exW 0 "c").bind (fun d1 => disconnect_port d1 0 "c") =
      disconnect_port exW 0 "c" := by
  have h1 := (disconnect_port_idempotent exW 0 "zz"
    { name := "W0", ports :=
        [ ("o", { name := "o", type := PortType.PORT_OUT, net := none })
        , ("i", { name := "i", type := PortType.PORT_IN, net := none })
        , ("c", { name := "c", type := PortType.PORT_IN, net := some 5 }) ] }
    (by decide) (by decide)).1 (by decide)
  obtain ⟨d1, hd1, hd1'⟩ := (disconnect_port_idempotent exW 0 "c"
    { name := "W0", ports :=
        [ ("o", { name := "o", type := PortType.PORT_OUT, net := none })
        , ("i", { name := "i", type := PortType.PORT_IN, net := none })
        , ("c", { name := "c", type := PortType.PORT_IN, net := some 5 }) ] }
    (by decide) (by decide)).2
  refine ⟨h1, ?_⟩
  rw [hd1]
  simpa using hd1'

/-! ### C2 -/

/-- Connecting any OUT-direction port (whatever its current net field) to a
net that already has a driver is fatal. -/
theorem connect_port_out_on_driven {d : Design} {c : CellId} {p : String}
    {ci : CellInfo} {port : PortInfo} {nid : NetId} {n : NetInfo} {k : CellId}
    (hc : getCell d c = some ci) (hp : lookupA p ci.ports = some port)
    (ht : port.type = PortType.PORT_OUT) (hg : getNet d nid = some n)
    (hd : n.driver.cell = some k) :
    connect_port d (some nid) c p = none := by
  cases hpn : port.net with
  | some m => exact connect_port_already_connected nid hc hp hpn
  | none => exact connect_port_second_driver hc hp hpn ht hg hd

/-- Sequential connect_port calls attaching a list of (cell, port name)
pairs to one net; the composition the claim quantifies over with the
phrase any number of IN or INOUT ports. -/
def connectList (d : Design) (nid : NetId) : List (CellId × String) → Option Design
  | [] => some d
  | (c, p) :: t =>
    match connect_port d (some nid) c p with
    | none => none
    | some d' => connectList d' nid t

/-- Every listed port exists, is unconnected, and has direction IN or
INOUT. -/
def usersOk (d : Design) (L : List (CellId × String)) : Prop :=
  ∀ x ∈ L, ∃ port, getPort d x.1 x.2 = some port ∧ port.net = none ∧
    (port.type = PortType.PORT_IN ∨ port.type = PortType.PORT_INOUT)

theorem connectList_keeps_driver :
    ∀ (L : List (CellId × String)) (d : Design) (nid : NetId) (n : NetInfo),
    getNet d nid = some n → usersOk d L → L.Pairwise (fun a b => a ≠ b) →
    ∃ d2, connectList d nid L = some d2 ∧
      ∃ n2, getNet d2 nid = some n2 ∧ n2.driver = n.driver := by
  intro L
  induction L with
  | nil =>
    intro d nid n hg _ _
    exact ⟨d, rfl, n, hg, rfl⟩
  | cons x t ih =>
    intro d nid n hg hok hpw
    obtain ⟨c, p⟩ := x
    obtain ⟨port, hgp, hpn, ht⟩ := hok (c, p) (by simp)
    have hc : ∃ ci, getCell d c = some ci ∧ lookupA p ci.ports = some port := by
      unfold getPort at hgp
      cases hcc : getCell d c with
      | none => rw [hcc] at hgp; cases hgp
      | some ci => rw [hcc] at hgp; exact ⟨ci, rfl, hgp⟩
    obtain ⟨ci, hcc, hpp⟩ := hc
    have hstep := connect_port_user_eq hcc hpp hpn ht hg
    set d1 := setNet (setPort d c p { port with net := some nid }) nid
      { n with users := n.users ++ [{ cell := some c, port := p }] } with hd1
    have hg1 : getNet d1 nid =
        some { n with users := n.users ++ [{ cell := some c, port := p }] } :=
      getNet_setNet_self _ _ _
    have hok1 : usersOk d1 t := by
      intro y hy
      obtain ⟨py, hgy, hny, hty⟩ := hok y (List.mem_cons_of_mem _ hy)
      have hne : ¬ (y.1 = c ∧ y.2 = p) := by
        intro hcontra
        have : y ≠ (c, p) := (List.pairwise_cons.mp hpw).1 y hy |>.symm
        exact this (Prod.ext hcontra.1 hcontra.2)
      refine ⟨py, ?_, hny, hty⟩
      rw [hd1, getPort_setNet, getPort_setPort_ne _ _ hne]
      exact hgy
    obtain ⟨d2, hrun, n2, hn2, hdrv⟩ :=
      ih d1 nid _ hg1 hok1 (List.pairwise_cons.mp hpw).2
    refine ⟨d2, ?_, n2, hn2, hdrv⟩
    unfold connectList
    rw [hstep]
    exact hrun

/-- C2: a net with a driver rejects (fatally) the connection of any further
OUT port, directly through connect and transitively through copy-port of an
OUT source port; while one OUT port followed by any number of distinct
unconnected IN/INOUT ports connects successfully and leaves that OUT port
as the sole driver. -/
theorem single_driver_invariant :
    (∀ (d : Design) (nid : NetId) (n : NetInfo) (c : CellId) (p : String)
      (ci : CellInfo) (port : PortInfo),
      getNet d nid = some n → n.driver.cell ≠ none →
      getCell d c = some ci → lookupA p ci.ports = some port →
      port.type = PortType.PORT_OUT →
      connect_port d (some nid) c p = none) ∧
    (∀ (d : Design) (oc : CellId) (onm : String) (nc : CellId) (nn : String)
      (ocell : CellInfo) (oport : PortInfo) (nid : NetId) (n : NetInfo),
      getCell d oc = some ocell → lookupA onm ocell.ports = some oport →
      oport.type = PortType.PORT_OUT → oport.net = some nid →
      getNet d nid = some n → n.driver.cell ≠ none →
      (getCell d nc).isSome →
      copy_port d oc onm nc nn = none) ∧
    (∀ (d : Design) (nid : NetId) (n : NetInfo) (c0 : CellId) (p0 : String)
      (port0 : PortInfo) (L : List (CellId × String)),
      getNet d nid = some n → n.driver.cell = none →
      getPort d c0 p0 = some port0 → port0.type = PortType.PORT_OUT →
      port0.net = none → usersOk d L → L.Pairwise (fun a b => a ≠ b) →
      ∃ d1, connect_port d (some nid) c0 p0 = some d1 ∧
        ∃ d2, connectList d1 nid L = some d2 ∧
          ∃ n2, getNet d2 nid = some n2 ∧
            n2.driver = { cell := some c0, port := p0 }) := by
  refine ⟨?_, ?_, ?_⟩
  · intro d nid n c p ci port hg hd hc hp ht
    cases hdc : n.driver.cell with
    | none => exact absurd hdc hd
    | some k => exact connect_port_out_on_driven hc hp ht hg hdc
  · intro d oc onm nc nn ocell oport nid n hoc hop htype hnet hg hd hsome
    cases hnc : getCell d nc with
    | none => rw [hnc] at hsome; cases hsome
    | some ncell =>
      -- the port value written by the two field assignments of the source
      set p0 : PortInfo :=
        (match lookupA nn ncell.ports with
          | some pp => pp
          | none => { name := "", type := PortType.PORT_IN, net := none }) with hp0
      set d1 := setPort d nc nn { p0 with name := nn } with hd1def
      have hd1some : (getCell d1 nc).isSome := by
        rw [hd1def, getCell_isSome_setPort, hnc]
        rfl
      have hnp1 : getPort d1 nc nn = some { p0 with name := nn } := by
        rw [hd1def]
        exact getPort_setPort_self _ _ _ (by rw [hnc]; rfl)
      -- the old port seen through d1 keeps its type and net
      have hop1 : ∃ op1, getPort d1 oc onm = some op1 ∧
          op1.type = oport.type ∧ op1.net = oport.net := by
        by_cases halias : oc = nc ∧ onm = nn
        · obtain ⟨h1, h2⟩ := halias
          subst h1; subst h2
          have : p0 = oport := by
            rw [hp0]
            rw [hnc] at hoc
            cases hoc
            rw [hop]
          rw [this] at hnp1
          exact ⟨_, hnp1, rfl, rfl⟩
        · refine ⟨oport, ?_, rfl, rfl⟩
          rw [hd1def, getPort_setPort_ne _ _ halias]
          simp [getPort, hoc, hop]
      obtain ⟨op1, hop1eq, hop1t, hop1n⟩ := hop1
      set d2 := setPort d1 nc nn { { p0 with name := nn } with type := op1.type } with hd2def
      have hd2some : (getCell d2 nc).isSome := by
        rw [hd2def, getCell_isSome_setPort]
        exact hd1some
      have hnp2 : getPort d2 nc nn = some { { p0 with name := nn } with type := op1.type } := by
        rw [hd2def]
        exact getPort_setPort_self _ _ _ hd1some
      have hop2 : ∃ op2, getPort d2 oc onm = some op2 ∧ op2.net = some nid := by
        by_cases halias : oc = nc ∧ onm = nn
        · obtain ⟨h1, h2⟩ := halias
          subst h1; subst h2
          refine ⟨_, hnp2, ?_⟩
          have hpo : p0 = oport := by
            rw [hp0]
            rw [hnc] at hoc
            cases hoc
            rw [hop]
          simp [hpo, hnet]
        · refine ⟨op1, ?_, by rw [hop1n]; exact hnet⟩
          rw [hd2def, getPort_setPort_ne _ _ halias]
          exact hop1eq
      obtain ⟨op2, hop2eq, hop2n⟩ := hop2
      -- unfold copy_port down to its final connect_port, which is fatal
      have hfinal : copy_port d oc onm nc nn = connect_port d2 op2.net nc nn := by
        unfold copy_port
        simp only [hoc, hop, hnc, ← hp0, ← hd1def, hop1eq, hnp1, ← hd2def, hop2eq]
      rw [hfinal, hop2n]
      -- the new port in d2 has direction OUT, and the net has a driver
      have hg2 : getNet d2 nid = some n := by
        rw [hd2def, hd1def, getNet_setPort, getNet_setPort]
        exact hg
      cases hdc : n.driver.cell with
      | none => exact absurd hdc hd
      | some k =>
        have hcc2 : ∃ ci2, getCell d2 nc = some ci2 ∧
            lookupA nn ci2.ports = some { { p0 with name := nn } with type := op1.type } := by
          unfold getPort at hnp2
          cases hx : getCell d2 nc with
          | none => rw [hx] at hnp2; cases hnp2
          | some ci2 => rw [hx] at hnp2; exact ⟨ci2, rfl, hnp2⟩
        obtain ⟨ci2, hci2, hlk2⟩ := hcc2
        exact connect_port_out_on_driven hci2 hlk2
          (by simp [hop1t, htype]) hg2 hdc
  · intro d nid n c0 p0 port0 L hg hdc hgp ht hpn hok hpw
    have hc : ∃ ci, getCell d c0 = some ci ∧ lookupA p0 ci.ports = some port0 := by
      unfold getPort at hgp
      cases hcc : getCell d c0 with
      | none => rw [hcc] at hgp; cases hgp
      | some ci => rw [hcc] at hgp; exact ⟨ci, rfl, hgp⟩
    obtain ⟨ci, hcc, hpp⟩ := hc
    have hstep := connect_port_out_eq hcc hpp hpn ht hg hdc
    set d1 := setNet (setPort d c0 p0 { port0 with net := some nid }) nid
      { n with driver := { cell := some c0, port := p0 } } with hd1
    have hg1 : getNet d1 nid =
        some { n with driver := { cell := some c0, port := p0 } } :=
      getNet_setNet_self _ _ _
    have hok1 : usersOk d1 L := by
      intro y hy
      obtain ⟨py, hgy, hny, hty⟩ := hok y hy
      have hne : ¬ (y.1 = c0 ∧ y.2 = p0) := by
        intro hcontra
        have : getPort d y.1 y.2 = some port0 := by
          rw [hcontra.1, hcontra.2]
          exact hgp
        rw [this] at hgy
        cases hgy
        rcases hty with h | h <;> rw [ht] at h <;> cases h
      refine ⟨py, ?_, hny, hty⟩
      rw [hd1, getPort_setNet, getPort_setPort_ne _ _ hne]
      exact hgy
    obtain ⟨d2, hrun, n2, hn2, hdrv⟩ := connectList_keeps_driver L d1 nid _ hg1 hok1 hpw
    exact ⟨d1, hstep, d2, hrun, n2, hn2, by rw [hdrv]⟩

/-- C2 witness: on exW and exWD, a second OUT port on a driven net is
fatal, directly and through copy_port, while OUT then IN then INOUT on the
empty net 5 succeeds with the OUT port as sole driver. -/
theorem single_driver_invariant_witness :
    connect_port exW (some 6) 0 "o" = none ∧
    copy_port exWD 2 "src" 3 "dup" = none ∧
    ((connect_port exW (some 5) 0 "o").bind
      (fun d1 => connectList d1 5 [(0, "i"), (1, "io")])).bind
        (fun d2 => (getNet d2 5).map NetInfo.driver) =
      some { cell := some 0, port := "o" } := by
  refine ⟨?_, ?_, ?_⟩
  · exact single_driver_invariant.1 exW 6
      { name := "wd", driver := { cell := some 9, port := "q" }, users := [] } 0 "o"
      { name := "W0", ports :=
          [ ("o", { name := "o", type := PortType.PORT_OUT, net := none })
          , ("i", { name := "i", type := PortType.PORT_IN, net := none })
          , ("c", { name := "c", type := PortType.PORT_IN, net := some 5 }) ] }
      { name := "o", type := PortType.PORT_OUT, net := none }
      (by decide) (by decide) (by decide) (by decide) (by decide)
  · exact single_driver_invariant.2.1 exWD 2 "src" 3 "dup"
      { name := "S", ports := [("src", { name := "src", type := PortType.PORT_OUT, net := some 8 })] }
      { name := "src", type := PortType.PORT_OUT, net := some 8 } 8
      { name := "dn", driver := { cell := some 2, port := "src" }, users := [] }
      (by decide) (by decide) (by decide) (by decide) (by decide) (by decide) (by decide)
  · obtain ⟨d1, hd1, d2, hd2, n2, hn2, hdrv⟩ := single_driver_invariant.2.2 exW 5
      { name := "wn", driver := { cell := none, port := "" },
        users := [{ cell := some 0, port := "c" }] } 0 "o"
      { name := "o", type := PortType.PORT_OUT, net := none } [(0, "i"), (1, "io")]
      (by decide) (by decide) (by decide) (by decide) (by decide)
      (by
        intro x hx
        simp only [List.mem_cons, List.mem_singleton] at hx
        rcases hx with h | h | h
        · subst h
          exact ⟨{ name := "i", type := PortType.PORT_IN, net := none },
            by decide, by decide, Or.inl (by decide)⟩
        · subst h
          exact ⟨{ name := "io", type := PortType.PORT_INOUT, net := none },
            by decide, by decide, Or.inr (by decide)⟩
        · cases h)
      (by decide)
    rw [hd1]
    simp only [Option.some_bind]
    rw [hd2]
    simp [hn2, hdrv]

/-! ### C7 -/

/-- The expanded indexed port name, following the spec's words: name[k] in
bracketed style, the flat concatenation of name and k otherwise. -/
def specExpandName (base : String) (k : Int) (brackets : Bool) : String :=
  if brackets then base ++ "[" ++ toString k ++ "]" else base ++ toString k

/-- The sequence of W replace-port calls of the claim, one per index i
ascending from 0 to W-1, each on the expanded names at old_offset + i and
new_offset + i. -/
def specReplaceSeq (d : Design) (oc : CellId) (ob : String) (oo : Int)
    (obr : Bool) (nc : CellId) (nb : String) (noff : Int) (nbr : Bool) :
    Nat → Option Design
  | 0 => some d
  | w + 1 =>
    match specReplaceSeq d oc ob oo obr nc nb noff nbr w with
    | none => none
    | some d' =>
      replace_port d' oc (specExpandName ob (oo + (w : Int)) obr) nc
        (specExpandName nb (noff + (w : Int)) nbr)

theorem busName_eq_specExpandName (br : Bool) (b : String) (i o : Int) :
    busName br b (i + o) = specExpandName b (o + i) br := by
  rw [Int.add_comm o i]
  rfl

/-- C7: replace_bus produces exactly the same final graph state as the W
sequential replace_port calls on the expanded names, for any bracket-style
combination, any offsets and any width. -/
theorem replace_bus_equiv :
    ∀ (d : Design) (oc : CellId) (ob : String) (oo : Int) (obr : Bool)
      (nc : CellId) (nb : String) (noff : Int) (nbr : Bool) (width : Int),
    replace_bus d oc ob oo obr nc nb noff nbr width =
      specReplaceSeq d oc ob oo obr nc nb noff nbr width.toNat := by
  intro d oc ob oo obr nc nb noff nbr width
  unfold replace_bus
  induction width.toNat with
  | zero => rfl
  | succ w ih =>
    rw [List.range_succ, List.foldl_append, ih]
    cases hx : specReplaceSeq d oc ob oo obr nc nb noff nbr w with
    | none => simp [specReplaceSeq, hx]
    | some d' =>
      simp only [specReplaceSeq, hx, List.foldl_cons, List.foldl_nil,
        busName_eq_specExpandName]
      rfl

/-! ### C9 -/

/-- C9: rename_net. Absent net: no-op. A new_name already denoting a net
in the Graph Store: fatal. Otherwise the storage slot moves from the
current identifier to new_name (the old identifier no longer resolves,
new_name resolves to the same net), the net's own name field becomes
new_name, and the driver, users and all other graph state are unchanged.
The hypotheses say that the net is stored under its own name and that
store identifiers are unique, the standing Graph Store invariants. -/
theorem rename_net_spec :
    ∀ (d : Design) (new : String),
    rename_net d none new = some d ∧
    (∀ (nid : NetId) (n : NetInfo),
      getNet d nid = some n → lookupA n.name d.nets = some nid →
      (d.nets.map Prod.fst).Nodup →
      ((∀ m, lookupA new d.nets = some m → rename_net d (some nid) new = none) ∧
       (lookupA new d.nets = none →
         ∃ d', rename_net d (some nid) new = some d' ∧
           lookupA n.name d'.nets = none ∧
           lookupA new d'.nets = some nid ∧
           getNet d' nid = some { n with name := new } ∧
           (∀ q, q ≠ n.name → q ≠ new → lookupA q d'.nets = lookupA q d.nets) ∧
           (∀ m, m ≠ nid → getNet d' m = getNet d m) ∧
           d'.cells = d.cells ∧ d'.cellHeap = d.cellHeap))) := by
  intro d new
  refine ⟨rfl, ?_⟩
  intro nid n hg hstore hnodup
  constructor
  · intro m hm
    simp [rename_net, hg, hm]
  · intro hnew
    have hne : n.name ≠ new := by
      intro h
      rw [h, hnew] at hstore
      cases hstore
    refine ⟨setNet { d with nets := insertA new nid (eraseA n.name d.nets) } nid
      { n with name := new }, ?_, ?_, ?_, ?_, ?_, ?_, rfl, rfl⟩
    · simp [rename_net, hg, hnew]
    · show lookupA n.name (insertA new nid (eraseA n.name d.nets)) = none
      rw [lookupA_insertA_ne _ _ hne, lookupA_eraseA_self hnodup]
    · show lookupA new (insertA new nid (eraseA n.name d.nets)) = some nid
      exact lookupA_insertA_self _ _ _
    · exact getNet_setNet_self _ _ _
    · intro q hq1 hq2
      show lookupA q (insertA new nid (eraseA n.name d.nets)) = lookupA q d.nets
      rw [lookupA_insertA_ne _ _ hq2, lookupA_eraseA_ne _ hq1]
    · intro m hm
      rw [getNet_setNet_ne _ _ hm]
      rfl

/-- Net 1 and net 2 both stored; used by the C9 witness. -/
def exR : Design :=
  { cells := []
  , nets := [("n1", 1), ("n2", 2)]
  , cellHeap := []
  , netHeap :=
      [ (1, { name := "n1", driver := { cell := none, port := "" },
              users := [{ cell := some 4, port := "u" }] })
      , (2, { name := "n2", driver := { cell := none, port := "" }, users := [] }) ] }

/-- C9 witness: on exR, renaming net 1 to the taken name n2 is fatal;
renaming it to n3 moves the slot and keeps the net's contents. -/
theorem rename_net_spec_witness :
    rename_net exR none "x" = some exR ∧
    rename_net exR (some 1) "n2" = none ∧
    (rename_net exR (some 1) "n3").map
      (fun d' => (lookupA "n1" d'.nets, lookupA "n3" d'.nets, getNet d' 1, getNet d' 2)) =
      some (none, some 1,
        some { name := "n3", driver := { cell := none, port := "" },
               users := [{ cell := some 4, port := "u" }] },
        some { name := "n2", driver := { cell := none, port := "" }, users := [] }) := by
  have h0 := (rename_net_spec exR "x").1
  have h1 := ((rename_net_spec exR "n2").2 1
    { name := "n1", driver := { cell := none, port := "" },
      users := [{ cell := some 4, port := "u" }] }
    (by decide) (by decide) (by decide)).1 2 (by decide)
  obtain ⟨d', hd', ha, hb, hc, _, hf, _, _⟩ := ((rename_net_spec exR "n3").2 1
    { name := "n1", driver := { cell := none, port := "" },
      users := [{ cell := some 4, port := "u" }] }
    (by decide) (by decide) (by decide)).2 (by decide)
  refine ⟨h0, h1, ?_⟩
  rw [hd']
  simp only [Option.map_some']
  rw [ha, hb, hc, hf 2 (by decide)]
  rfl

/-! ### C8 -/

/-- Cell 0 has two IN ports, p1 on net 1 and p2 on net 2; used by the C8
counterexample and witness. -/
def exRP : Design :=
  { cells := [("C", 0)]
  , nets := [("m1", 1), ("m2", 2)]
  , cellHeap :=
      [ (0, { name := "C", ports :=
          [ ("p1", { name := "p1", type := PortType.PORT_IN, net := some 1 })
          , ("p2", { name := "p2", type := PortType.PORT_IN, net := some 2 }) ] }) ]
  , netHeap :=
      [ (1, { name := "m1", driver := { cell := none, port := "" },
              users := [{ cell := some 0, port := "p1" }] })
      , (2, { name := "m2", driver := { cell := none, port := "" },
              users := [{ cell := some 0, port := "p2" }] }) ] }

/-- C8 counterexample: renaming p1 to the already existing port name p2
overwrites p2's record: the cell drops from two ports to one, and net 2 is
left with a user entry naming a port whose net reference is net 1. No
substitution of p2 for p1 makes the result isomorphic to the original (an
isomorphism preserves the number of ports of a cell and the back-references
between nets and ports), so the claim fails as stated on this input. -/
theorem rename_port_overwrite_counterexample :
    (rename_port exRP 0 "p1" "p2").map
      (fun d' => (getCell d' 0).map (fun ci => ci.ports.length)) = some (some 1) ∧
    (getCell exRP 0).map (fun ci => ci.ports.length) = some 2 ∧
    (rename_port exRP 0 "p1" "p2").bind (fun d' => getNet d' 2) =
      some { name := "m2", driver := { cell := none, port := "" },
             users := [{ cell := some 0, port := "p2" }] } ∧
    (rename_port exRP 0 "p1" "p2").bind
      (fun d' => (getPort d' 0 "p2").map PortInfo.net) = some (some 1) := by
  decide

/-- C8, amended: provided new_name is fresh on the cell (or equals
old_name), rename_port of a connected port changes exactly the net
references that mention (cell, old_name) — the driver reference when it
matches and every matching user entry, each kept in its list position —
and moves the port record, with its name field updated, from old_name to
new_name; the number of ports, all other ports, all other cells, all other
nets and the Graph Store dictionaries are unchanged, and a missing
old_name is a no-op. -/
theorem rename_port_relabel :
    ∀ (d : Design) (c : CellId) (old new : String) (ci : CellInfo),
    getCell d c = some ci →
    (ci.ports.map Prod.fst).Nodup →
    (lookupA old ci.ports = none → rename_port d c old new = some d) ∧
    (∀ pi nid n, lookupA old ci.ports = some pi →
      pi.net = some nid → getNet d nid = some n →
      (new = old ∨ lookupA new ci.ports = none) →
      ∃ d', rename_port d c old new = some d' ∧
        (∃ ci', getCell d' c = some ci' ∧
          ci'.name = ci.name ∧
          ci'.ports.length = ci.ports.length ∧
          lookupA new ci'.ports = some { pi with name := new } ∧
          (old ≠ new → lookupA old ci'.ports = none) ∧
          (∀ q, q ≠ old → q ≠ new → lookupA q ci'.ports = lookupA q ci.ports)) ∧
        (∀ c', c' ≠ c → getCell d' c' = getCell d c') ∧
        getNet d' nid = some
          { n with
            driver :=
              if n.driver.cell = some c ∧ n.driver.port = old then
                { n.driver with port := new }
              else n.driver,
            users := n.users.map (fun u =>
              if u.cell = some c ∧ u.port = old then { u with port := new } else u) } ∧
        (∀ m, m ≠ nid → getNet d' m = getNet d m) ∧
        d'.cells = d.cells ∧ d'.nets = d.nets) := by
  intro d c old new ci hc hnodup
  constructor
  · intro hp
    simp [rename_port, hc, hp]
  · intro pi nid n hp hnet hg hfresh
    have hnewgone : lookupA new (eraseA old ci.ports) = none := by
      rcases hfresh with h | h
      · rw [h]
        exact lookupA_eraseA_self hnodup
      · by_cases he : new = old
        · rw [he]
          exact lookupA_eraseA_self hnodup
        · rw [lookupA_eraseA_ne _ he]
          exact h
    set n2 : NetInfo :=
      { n with
        driver :=
          if n.driver.cell = some c ∧ n.driver.port = old then
            { n.driver with port := new }
          else n.driver,
        users := n.users.map (fun u =>
          if u.cell = some c ∧ u.port = old then { u with port := new } else u) }
      with hn2
    have heq : rename_port d c old new =
        some (setCell (setNet d nid n2) c
          { ci with ports := insertA new { pi with name := new } (eraseA old ci.ports) }) := by
      by_cases hm : n.driver.cell = some c ∧ n.driver.port = old
      · simp only [rename_port, hc, hp, hnet, hg, if_pos hm, hn2]
      · simp only [rename_port, hc, hp, hnet, hg, if_neg hm, hn2]
    refine ⟨_, heq, ⟨_, getCell_setCell_self _ _ _, rfl, ?_, lookupA_insertA_self _ _ _,
      ?_, ?_⟩, ?_, ?_, ?_, rfl, rfl⟩
    · show (insertA new { pi with name := new } (eraseA old ci.ports)).length = ci.ports.length
      rw [length_insertA_of_lookupA_none _ hnewgone,
        length_eraseA_of_lookupA_some hp]
    · intro hne
      show lookupA old (insertA new { pi with name := new } (eraseA old ci.ports)) = none
      rw [lookupA_insertA_ne _ _ hne, lookupA_eraseA_self hnodup]
    · intro q hq1 hq2
      show lookupA q (insertA new { pi with name := new } (eraseA old ci.ports)) =
        lookupA q ci.ports
      rw [lookupA_insertA_ne _ _ hq2, lookupA_eraseA_ne _ hq1]
    · intro c' hc'
      rw [getCell_setCell_ne _ _ hc']
      rfl
    · rw [getNet_setCell, getNet_setNet_self]
    · intro m hm
      rw [getNet_setCell, getNet_setNet_ne _ _ hm]

/-- C8 witness: renaming the connected port p1 of exRP to the fresh name q
rewrites exactly net 1's user entry, moves the record, and keeps the port
count. -/
theorem rename_port_relabel_witness :
    rename_port exRP 0 "zz" "q" = some exRP ∧
    (rename_port exRP 0 "p1" "q").bind (fun d' => getNet d' 1) =
      some { name := "m1", driver := { cell := none, port := "" },
             users := [{ cell := some 0, port := "q" }] } ∧
    (rename_port exRP 0 "p1" "q").map
      (fun d' => ((getCell d' 0).map (fun ci => ci.ports.length),
        (getPort d' 0 "q").map PortInfo.net, getNet d' 2)) =
      some (some 2, some (some 1),
        some { name := "m2", driver := { cell := none, port := "" },
               users := [{ cell := some 0, port := "p2" }] }) := by
  have hciRP : getCell exRP 0 = some { name := "C", ports :=
      [ ("p1", { name := "p1", type := PortType.PORT_IN, net := some 1 })
      , ("p2", { name := "p2", type := PortType.PORT_IN, net := some 2 }) ] } := by decide
  have h0 := (rename_port_relabel exRP 0 "zz" "q" _ hciRP (by decide)).1 (by decide)
  obtain ⟨d', hd', ⟨ci', hci', _, hlen, hq, _, hother⟩, _, hnet1, hnetfr, _, _⟩ :=
    (rename_port_relabel exRP 0 "p1" "q" _ hciRP (by decide)).2
      { name := "p1", type := PortType.PORT_IN, net := some 1 } 1
      { name := "m1", driver := { cell := none, port := "" },
        users := [{ cell := some 0, port := "p1" }] }
      (by decide) (by decide) (by decide) (Or.inr (by decide))
  refine ⟨h0, ?_, ?_⟩
  · rw [hd']
    simp only [Option.some_bind]
    rw [hnet1]
    decide
  · rw [hd']
    simp only [Option.map_some']
    rw [hnetfr 2 (by decide)]
    simp only [getPort, hci', Option.map_some', hq, hlen]
    decide

/-! ### C3 -/

/-- Cell 0 has one OUT port p driving net 1; used by the C3
counterexample. -/
def exAL : Design :=
  { cells := [("A", 0)]
  , nets := [("a1", 1)]
  , cellHeap :=
      [ (0, { name := "A", ports :=
          [("p", { name := "p", type := PortType.PORT_OUT, net := some 1 })] }) ]
  , netHeap :=
      [ (1, { name := "a1", driver := { cell := some 0, port := "p" }, users := [] }) ] }

/-- C3 counterexample: the aliased call replace_port(A, p, A, p) — an
instance of the claim's universally quantified statement — does not
transfer the old port's net to the new (identical) port: the call succeeds
but leaves the port's net reference cleared, with the net still naming the
port as driver, contradicting the claimed outcome that new_port ends up
holding old_port's net with the driver updated to it. -/
theorem replace_port_alias_counterexample :
    (replace_port exAL 0 "p" 0 "p").bind
      (fun d' => (getPort d' 0 "p").map PortInfo.net) = some none ∧
    (replace_port exAL 0 "p" 0 "p").bind (fun d' => getNet d' 1) =
      some { name := "a1", driver := { cell := some 0, port := "p" }, users := [] } := by
  decide

/-- The postconditions of the successful non-aliased replace_port, stated
over any intermediate state d1 that agrees with d away from a possible
fresh replacement port at (rc, rn). -/
theorem replace_port_post {d d1 : Design} {oc rc : CellId} {onm rn : String}
    {old0 rep0 : PortInfo}
    (hrc1 : (getCell d1 rc).isSome) (hoc1 : (getCell d1 oc).isSome)
    (hfr : ∀ c p, ¬ (c = rc ∧ p = rn) → getPort d1 c p = getPort d c p)
    (hnets : ∀ k, getNet d1 k = getNet d k)
    (hcells : d1.cells = d.cells) (hnetsd : d1.nets = d.nets)
    (hne : ¬ (oc = rc ∧ onm = rn))
    (hrt : rep0.type = old0.type)
    (hio : ¬ old0.type = PortType.PORT_INOUT)
    (hres : ∀ nid, old0.net = some nid → (getNet d nid).isSome) :
    ∃ d',
      replaceTail
        (setPort (setPort d1 rc rn { rep0 with net := old0.net }) oc onm
          { old0 with net := none })
        oc onm rc rn { rep0 with net := old0.net } = some d' ∧
      getPort d' rc rn = some { rep0 with net := old0.net } ∧
      getPort d' oc onm = some { old0 with net := none } ∧
      (∀ c p, ¬ (c = oc ∧ p = onm) → ¬ (c = rc ∧ p = rn) →
        getPort d' c p = getPort d c p) ∧
      (∀ nid n, old0.net = some nid → getNet d nid = some n →
        (old0.type = PortType.PORT_OUT →
          getNet d' nid = some { n with driver := { cell := some rc, port := rn } }) ∧
        (old0.type = PortType.PORT_IN →
          getNet d' nid = some { n with users := n.users.map (fun load =>
            if load.cell = some oc ∧ load.port = onm then
              { cell := some rc, port := rn }
            else load) })) ∧
      (∀ m, old0.net ≠ some m → getNet d' m = getNet d m) ∧
      d'.cells = d.cells ∧ d'.nets = d.nets := by
  have hne' : ¬ (rc = oc ∧ rn = onm) := fun h => hne ⟨h.1.symm, h.2.symm⟩
  set d3 := setPort (setPort d1 rc rn { rep0 with net := old0.net }) oc onm
    { old0 with net := none } with hd3
  have f1 : getPort d3 rc rn = some { rep0 with net := old0.net } := by
    rw [hd3, getPort_setPort_ne _ _ hne']
    exact getPort_setPort_self _ _ _ hrc1
  have f2 : getPort d3 oc onm = some { old0 with net := none } := by
    rw [hd3]
    refine getPort_setPort_self _ _ _ ?_
    rw [getCell_isSome_setPort]
    exact hoc1
  have f3 : ∀ c p, ¬ (c = oc ∧ p = onm) → ¬ (c = rc ∧ p = rn) →
      getPort d3 c p = getPort d c p := by
    intro c p h1 h2
    rw [hd3, getPort_setPort_ne _ _ h1, getPort_setPort_ne _ _ h2]
    exact hfr c p h2
  have f4 : ∀ k, getNet d3 k = getNet d k := by
    intro k
    rw [hd3, getNet_setPort, getNet_setPort]
    exact hnets k
  have f5c : d3.cells = d.cells := by rw [hd3]; simp [hcells]
  have f5n : d3.nets = d.nets := by rw [hd3]; simp [hnetsd]
  cases hnet : old0.net with
  | none =>
    rw [hnet] at f1
    have htail : replaceTail d3 oc onm rc rn { rep0 with net := none } = some d3 := by
      cases hT : old0.type with
      | PORT_OUT => simp [replaceTail, hrt, hT]
      | PORT_IN => simp [replaceTail, hrt, hT]
      | PORT_INOUT => exact absurd hT hio
    refine ⟨d3, htail, f1, f2, f3, ?_, fun m _ => f4 m, f5c, f5n⟩
    intro nid n hcontra
    cases hcontra
  | some nid =>
    rw [hnet] at f1
    have hg : ∃ n, getNet d nid = some n := by
      have := hres nid hnet
      cases hx : getNet d nid with
      | none => rw [hx] at this; cases this
      | some n => exact ⟨n, rfl⟩
    obtain ⟨n, hg⟩ := hg
    have hg3 : getNet d3 nid = some n := by rw [f4]; exact hg
    cases hT : old0.type with
    | PORT_INOUT => exact absurd hT hio
    | PORT_OUT =>
      have hrt' : rep0.type = PortType.PORT_OUT := by rw [hrt, hT]
      rw [hT] at f2
      have htail : replaceTail d3 oc onm rc rn { rep0 with net := some nid } =
          some (setNet d3 nid { n with driver := { cell := some rc, port := rn } }) := by
        simp [replaceTail, hrt', hg3]
      refine ⟨_, htail, ?_, ?_, ?_, ?_, ?_, ?_, ?_⟩
      · rw [getPort_setNet]; exact f1
      · rw [getPort_setNet]; exact f2
      · intro c p h1 h2
        rw [getPort_setNet]
        exact f3 c p h1 h2
      · intro nid' n' h1 h2
        cases h1
        rw [hg] at h2
        cases h2
        constructor
        · intro _
          rw [getNet_setNet_self]
        · intro hIN
          cases hIN
      · intro m hm
        have hmne : m ≠ nid := by
          intro h
          rw [h] at hm
          exact hm rfl
        rw [getNet_setNet_ne _ _ hmne]
        exact f4 m
      · simp [f5c]
      · simp [f5n]
    | PORT_IN =>
      have hrt' : rep0.type = PortType.PORT_IN := by rw [hrt, hT]
      rw [hT] at f2
      have htail : replaceTail d3 oc onm rc rn { rep0 with net := some nid } =
          some (setNet d3 nid { n with users := n.users.map (fun load =>
            if load.cell = some oc ∧ load.port = onm then
              { cell := some rc, port := rn }
            else load) }) := by
        simp [replaceTail, hrt', hg3]
      refine ⟨_, htail, ?_, ?_, ?_, ?_, ?_, ?_, ?_⟩
      · rw [getPort_setNet]; exact f1
      · rw [getPort_setNet]; exact f2
      · intro c p h1 h2
        rw [getPort_setNet]
        exact f3 c p h1 h2
      · intro nid' n' h1 h2
        cases h1
        rw [hg] at h2
        cases h2
        constructor
        · intro hOUT
          cases hOUT
        · intro _
          rw [getNet_setNet_self]
      · intro m hm
        have hmne : m ≠ nid := by
          intro h
          rw [h] at hm
          exact hm rfl
        rw [getNet_setNet_ne _ _ hmne]
        exact f4 m
      · simp [f5c]
      · simp [f5n]

/-- C3, amended with the precondition that (old_cell, old_port) and
(new_cell, new_port) are not the same port. Then: a missing old port is a
no-op; two pre-existing ports with differing directions are a fatal error;
direction INOUT is a fatal error; otherwise the replacement port (created
with the old port's direction if absent) takes over the old port's net,
the old port's net reference is cleared, and for OUT the net's driver
reference becomes (new_cell, new_port) while for IN every user entry
matching (old_cell, old_port) is rewritten to (new_cell, new_port); all
other ports, nets and the store dictionaries are unchanged. -/
theorem replace_port_behavior :
    ∀ (d : Design) (oc : CellId) (onm : String) (rc : CellId) (rn : String)
      (ocell : CellInfo),
    getCell d oc = some ocell →
    (getCell d rc).isSome →
    ¬ (oc = rc ∧ onm = rn) →
    (lookupA onm ocell.ports = none → replace_port d oc onm rc rn = some d) ∧
    (∀ old0 rcell, lookupA onm ocell.ports = some old0 → getCell d rc = some rcell →
      ((∀ rp0, lookupA rn rcell.ports = some rp0 → ¬ old0.type = rp0.type →
          replace_port d oc onm rc rn = none) ∧
       (old0.type = PortType.PORT_INOUT →
          (lookupA rn rcell.ports = none ∨
           (∃ rp0, lookupA rn rcell.ports = some rp0 ∧ old0.type = rp0.type)) →
          replace_port d oc onm rc rn = none) ∧
       (∀ rep0,
          ((lookupA rn rcell.ports = some rep0 ∧ old0.type = rep0.type) ∨
           (lookupA rn rcell.ports = none ∧
            rep0 = { name := rn, type := old0.type, net := none })) →
          ¬ old0.type = PortType.PORT_INOUT →
          (∀ nid, old0.net = some nid → (getNet d nid).isSome) →
          ∃ d', replace_port d oc onm rc rn = some d' ∧
            getPort d' rc rn = some { rep0 with net := old0.net } ∧
            getPort d' oc onm = some { old0 with net := none } ∧
            (∀ c p, ¬ (c = oc ∧ p = onm) → ¬ (c = rc ∧ p = rn) →
              getPort d' c p = getPort d c p) ∧
            (∀ nid n, old0.net = some nid → getNet d nid = some n →
              (old0.type = PortType.PORT_OUT →
                getNet d' nid =
                  some { n with driver := { cell := some rc, port := rn } }) ∧
              (old0.type = PortType.PORT_IN →
                getNet d' nid = some { n with users := n.users.map (fun load =>
                  if load.cell = some oc ∧ load.port = onm then
                    { cell := some rc, port := rn }
                  else load) })) ∧
            (∀ m, old0.net ≠ some m → getNet d' m = getNet d m) ∧
            d'.cells = d.cells ∧ d'.nets = d.nets))) := by
  intro d oc onm rc rn ocell hoc hrcs hne
  refine ⟨fun hop => replace_port_no_port hoc hop, ?_⟩
  intro old0 rcell hop hrc
  refine ⟨fun rp0 hlk hty => replace_port_type_mismatch hoc hop hrc hlk hty, ?_, ?_⟩
  · intro hio hrep0
    have hshape : ∃ (d1 : Design) (rep0 : PortInfo), rep0.type = old0.type ∧
        replace_port d oc onm rc rn =
          replaceTail
            (setPort (setPort d1 rc rn { rep0 with net := old0.net }) oc onm
              { old0 with net := none })
            oc onm rc rn { rep0 with net := old0.net } := by
      rcases hrep0 with hlk | ⟨rp0, hlk, hty⟩
      · exact ⟨_, { name := rn, type := old0.type, net := none }, rfl,
          replace_port_shape_ne hoc hop hrc (Or.inr ⟨hlk, rfl, rfl⟩) hne rfl⟩
      · exact ⟨d, rp0, hty.symm, replace_port_shape_ne hoc hop hrc
          (Or.inl ⟨hlk, rfl⟩) hne hty⟩
    obtain ⟨d1, rep0, hrt, hshape⟩ := hshape
    rw [hshape]
    unfold replaceTail
    simp [hrt, hio]
  · intro rep0 hrep0 hio hres
    rcases hrep0 with ⟨hlk, hty⟩ | ⟨hlk, hval⟩
    · -- the replacement port pre-exists: d1 is d itself
      have hshape := replace_port_shape_ne hoc hop hrc (Or.inl ⟨hlk, rfl⟩) hne hty
      rw [hshape]
      exact replace_port_post (by simp [hrc]) (by simp [hoc])
        (fun c p _ => rfl) (fun k => rfl) rfl rfl hne hty.symm hio hres
    · -- the replacement port is created fresh on d1
      subst hval
      have hshape := replace_port_shape_ne hoc hop hrc (Or.inr ⟨hlk, rfl, rfl⟩) hne rfl
      rw [hshape]
      refine replace_port_post ?_ ?_ ?_ ?_ ?_ ?_ hne rfl hio hres
      · rw [getCell_isSome_setPort]
        simp [hrc]
      · rw [getCell_isSome_setPort]
        simp [hoc]
      · intro c p hcp
        exact getPort_setPort_ne _ _ hcp
      · intro k
        rw [getNet_setPort]
      · simp
      · simp

/-- Cell 0 drives net 1 from q, cell 1 uses it at u, cell 2 has an
unconnected IN port w; used by the C3 witness. -/
def exRep : Design :=
  { cells := [("A", 0), ("B", 1), ("C", 2)]
  , nets := [("r1", 1)]
  , cellHeap :=
      [ (0, { name := "A", ports :=
          [ ("q", { name := "q", type := PortType.PORT_OUT, net := some 1 })
          , ("b", { name := "b", type := PortType.PORT_INOUT, net := none }) ] })
      , (1, { name := "B", ports :=
          [("u", { name := "u", type := PortType.PORT_IN, net := some 1 })] })
      , (2, { name := "C", ports :=
          [("w", { name := "w", type := PortType.PORT_IN, net := none })] }) ]
  , netHeap :=
      [ (1, { name := "r1", driver := { cell := some 0, port := "q" },
              users := [{ cell := some 1, port := "u" }] }) ] }

/-- The NetInfo stored as net 1 of exRep. -/
def exRepN1 : NetInfo :=
  { name := "r1", driver := { cell := some 0, port := "q" },
    users := [{ cell := some 1, port := "u" }] }

/-- C3 witness: on exRep, the amended behaviour evaluated for a missing
old port, a direction mismatch, an INOUT port, an OUT move with port
creation, and an IN move onto a pre-existing port. -/
theorem replace_port_behavior_witness :
    replace_port exRep 0 "zz" 2 "x" = some exRep ∧
    replace_port exRep 0 "q" 2 "w" = none ∧
    replace_port exRep 0 "b" 2 "y" = none ∧
    (replace_port exRep 0 "q" 2 "x").bind (fun d' => getNet d' 1) =
      some { name := "r1", driver := { cell := some 2, port := "x" },
             users := [{ cell := some 1, port := "u" }] } ∧
    (replace_port exRep 0 "q" 2 "x").bind
      (fun d' => (getPort d' 2 "x").map PortInfo.net) = some (some 1) ∧
    (replace_port exRep 1 "u" 2 "w").bind (fun d' => getNet d' 1) =
      some { name := "r1", driver := { cell := some 0, port := "q" },
             users := [{ cell := some 2, port := "w" }] } := by
  have hA : getCell exRep 0 = some { name := "A", ports :=
      [ ("q", { name := "q", type := PortType.PORT_OUT, net := some 1 })
      , ("b", { name := "b", type := PortType.PORT_INOUT, net := none }) ] } := by decide
  have hB : getCell exRep 1 = some { name := "B", ports :=
      [("u", { name := "u", type := PortType.PORT_IN, net := some 1 })] } := by decide
  have hC : getCell exRep 2 = some { name := "C", ports :=
      [("w", { name := "w", type := PortType.PORT_IN, net := none })] } := by decide
  have h1 := (replace_port_behavior exRep 0 "zz" 2 "x" _ hA (by decide)
    (by decide)).1 (by decide)
  have h2 := ((replace_port_behavior exRep 0 "q" 2 "w" _ hA (by decide)
    (by decide)).2 { name := "q", type := PortType.PORT_OUT, net := some 1 } _
    (by decide) hC).1
    { name := "w", type := PortType.PORT_IN, net := none } (by decide) (by decide)
  have h3 := ((replace_port_behavior exRep 0 "b" 2 "y" _ hA (by decide)
    (by decide)).2 { name := "b", type := PortType.PORT_INOUT, net := none } _
    (by decide) hC).2.1 (by decide) (Or.inl (by decide))
  obtain ⟨d4, hd4, hrcp4, _, _, hnet4, _, _, _⟩ :=
    ((replace_port_behavior exRep 0 "q" 2 "x" _ hA (by decide) (by decide)).2
      { name := "q", type := PortType.PORT_OUT, net := some 1 } _ (by decide) hC).2.2
      { name := "x", type := PortType.PORT_OUT, net := none }
      (Or.inr ⟨by decide, rfl⟩) (by decide)
      (fun nid h => by rw [show nid = 1 from by cases h; rfl]; decide)
  obtain ⟨d5, hd5, _, _, _, hnet5, _, _, _⟩ :=
    ((replace_port_behavior exRep 1 "u" 2 "w" _ hB (by decide) (by decide)).2
      { name := "u", type := PortType.PORT_IN, net := some 1 } _ (by decide) hC).2.2
      { name := "w", type := PortType.PORT_IN, net := none }
      (Or.inl ⟨by decide, by decide⟩) (by decide)
      (fun nid h => by rw [show nid = 1 from by cases h; rfl]; decide)
  refine ⟨h1, h2, h3, ?_, ?_, ?_⟩
  · rw [hd4]
    simp only [Option.some_bind]
    rw [(hnet4 1 exRepN1 (by decide) (by decide)).1 (by decide)]
    decide
  · rw [hd4]
    simp only [Option.some_bind]
    rw [hrcp4]
    decide
  · rw [hd5]
    simp only [Option.some_bind]
    rw [(hnet5 1 exRepN1 (by decide) (by decide)).2 (by decide)]
    decide

/-! ### C4: the data-model invariants -/

/-- Resolve a PortRef to the port it names (a null cell resolves to
nothing). -/
def refPort (d : Design) (r : PortRef) : Option PortInfo :=
  match r.cell with
  | none => none
  | some c => getPort d c r.port

/-- A user entry names an IN or INOUT port whose net reference points back
to the net. -/
def userOkP (d : Design) (k : NetId) (u : PortRef) : Prop :=
  ∃ pi, refPort d u = some pi ∧
    (pi.type = PortType.PORT_IN ∨ pi.type = PortType.PORT_INOUT) ∧ pi.net = some k

/-- A present driver names an OUT or INOUT port whose net reference points
back to the net. -/
def driverOkP (d : Design) (k : NetId) (n : NetInfo) : Prop :=
  n.driver.cell ≠ none →
    ∃ pi, refPort d n.driver = some pi ∧
      (pi.type = PortType.PORT_OUT ∨ pi.type = PortType.PORT_INOUT) ∧ pi.net = some k

/-- The net lists the port: as driver for OUT, as a user for IN/INOUT. -/
def listsPort (c : CellId) (p : String) (t : PortType) (n : NetInfo) : Prop :=
  match t with
  | PortType.PORT_OUT => n.driver = { cell := some c, port := p }
  | _ => ({ cell := some c, port := p } : PortRef) ∈ n.users

/-- A connected port points to an existing net that lists it. -/
def portOkP (d : Design) (c : CellId) (p : String) (pi : PortInfo) : Prop :=
  ∀ k, pi.net = some k → ∃ n, getNet d k = some n ∧ listsPort c p pi.type n

/-- The data-model invariants of the spec (section 3): every user entry and
every present driver back-reference their net with the right direction, and
every connected port is listed by its net. The single-driver property is
structural in the model (the driver is one field). -/
def Inv (d : Design) : Prop :=
  (∀ k n, getNet d k = some n → driverOkP d k n ∧ ∀ u ∈ n.users, userOkP d k u) ∧
  (∀ c p pi, getPort d c p = some pi → portOkP d c p pi)

/-- Executable check of userOkP. -/
def userOkB (d : Design) (k : NetId) (u : PortRef) : Bool :=
  match refPort d u with
  | some pi =>
    decide ((pi.type = PortType.PORT_IN ∨ pi.type = PortType.PORT_INOUT) ∧
      pi.net = some k)
  | none => false

/-- Executable check of driverOkP. -/
def driverOkB (d : Design) (k : NetId) (n : NetInfo) : Bool :=
  match n.driver.cell with
  | none => true
  | some _ =>
    match refPort d n.driver with
    | some pi =>
      decide ((pi.type = PortType.PORT_OUT ∨ pi.type = PortType.PORT_INOUT) ∧
        pi.net = some k)
    | none => false

/-- Executable check of listsPort. -/
def listsPortB (c : CellId) (p : String) (t : PortType) (n : NetInfo) : Bool :=
  match t with
  | PortType.PORT_OUT => decide (n.driver = { cell := some c, port := p })
  | _ => decide (({ cell := some c, port := p } : PortRef) ∈ n.users)

/-- Executable check of portOkP for the port stored at (c, p). -/
def portOkB (d : Design) (c : CellId) (p : String) : Bool :=
  match getPort d c p with
  | none => true
  | some pi =>
    match pi.net with
    | none => true
    | some k =>
      match getNet d k with
      | none => false
      | some n => listsPortB c p pi.type n

/-- Executable check of Inv, iterating the two heaps. -/
def invB (d : Design) : Bool :=
  (d.netHeap.all fun e =>
    match getNet d e.1 with
    | none => true
    | some n => driverOkB d e.1 n && n.users.all (userOkB d e.1)) &&
  (d.cellHeap.all fun e =>
    match getCell d e.1 with
    | none => true
    | some ci => ci.ports.all (fun pe => portOkB d e.1 pe.1))

theorem userOkB_iff (d : Design) (k : NetId) (u : PortRef) :
    userOkB d k u = true ↔ userOkP d k u := by
  unfold userOkB userOkP
  cases h : refPort d u with
  | none => simp [h]
  | some pi => simp [h]

theorem driverOkB_iff (d : Design) (k : NetId) (n : NetInfo) :
    driverOkB d k n = true ↔ driverOkP d k n := by
  unfold driverOkB driverOkP
  cases hc : n.driver.cell with
  | none => simp [hc]
  | some c =>
    cases h : refPort d n.driver with
    | none => simp [h, hc]
    | some pi => simp [h, hc]

theorem listsPortB_iff (c : CellId) (p : String) (t : PortType) (n : NetInfo) :
    listsPortB c p t n = true ↔ listsPort c p t n := by
  unfold listsPortB listsPort
  cases t <;> simp

theorem Inv_of_invB (d : Design) (h : invB d = true) : Inv d := by
  rw [invB, Bool.and_eq_true, List.all_eq_true, List.all_eq_true] at h
  constructor
  · intro k n hg
    have hmem : (k, n) ∈ d.netHeap := lookupA_mem hg
    have := h.1 (k, n) hmem
    simp only [hg] at this
    rw [Bool.and_eq_true, List.all_eq_true] at this
    refine ⟨(driverOkB_iff d k n).mp this.1, ?_⟩
    intro u hu
    exact (userOkB_iff d k u).mp (this.2 u hu)
  · intro c p pi hgp
    have hcells : ∃ ci, getCell d c = some ci ∧ lookupA p ci.ports = some pi := by
      unfold getPort at hgp
      cases hc : getCell d c with
      | none => rw [hc] at hgp; cases hgp
      | some ci => rw [hc] at hgp; exact ⟨ci, rfl, hgp⟩
    obtain ⟨ci, hc, hp⟩ := hcells
    have hmem : (c, ci) ∈ d.cellHeap := lookupA_mem hc
    have hall := h.2 (c, ci) hmem
    simp only [hc] at hall
    rw [List.all_eq_true] at hall
    have hpe := hall (p, pi) (lookupA_mem hp)
    unfold portOkB at hpe
    simp only [hgp] at hpe
    intro k hk
    simp only [hk] at hpe
    cases hgn : getNet d k with
    | none => rw [hgn] at hpe; cases hpe
    | some n =>
      rw [hgn] at hpe
      exact ⟨n, rfl, (listsPortB_iff c p pi.type n).mp hpe⟩

theorem invB_of_Inv (d : Design) (h : Inv d) : invB d = true := by
  rw [invB, Bool.and_eq_true, List.all_eq_true, List.all_eq_true]
  constructor
  · intro e _
    cases hg : getNet d e.1 with
    | none => rfl
    | some n =>
      have := h.1 e.1 n hg
      rw [Bool.and_eq_true, List.all_eq_true]
      refine ⟨(driverOkB_iff d e.1 n).mpr this.1, ?_⟩
      intro u hu
      exact (userOkB_iff d e.1 u).mpr (this.2 u hu)
  · intro e _
    cases hc : getCell d e.1 with
    | none => rfl
    | some ci =>
      rw [List.all_eq_true]
      intro pe _
      unfold portOkB
      cases hgp : getPort d e.1 pe.1 with
      | none => rfl
      | some pi =>
        show (match pi.net with
          | none => true
          | some k =>
            match getNet d k with
            | none => false
            | some n => listsPortB e.1 pe.1 pi.type n) = true
        cases hk : pi.net with
        | none => rfl
        | some k =>
          obtain ⟨n, hn, hl⟩ := h.2 e.1 pe.1 pi hgp k hk
          show (match getNet d k with
            | none => false
            | some n => listsPortB e.1 pe.1 pi.type n) = true
          rw [hn]
          exact (listsPortB_iff _ _ _ _).mpr hl

/-- refPort is unchanged by a net write. -/
theorem refPort_setNet (d : Design) (k : NetId) (n : NetInfo) (r : PortRef) :
    refPort (setNet d k n) r = refPort d r := by
  unfold refPort
  cases r.cell <;> rfl

/-- refPort is unchanged by a port write at a different (cell, port). -/
theorem refPort_setPort_ne (d : Design) {c : CellId} {p : String} (v : PortInfo)
    {r : PortRef} (h : ¬ (r.cell = some c ∧ r.port = p)) :
    refPort (setPort d c p v) r = refPort d r := by
  unfold refPort
  cases hr : r.cell with
  | none => rfl
  | some c' =>
    refine getPort_setPort_ne _ _ ?_
    intro hcp
    exact h ⟨by rw [hr, hcp.1], hcp.2⟩

theorem refPort_eq_getPort {d : Design} {u : PortRef} {c : CellId}
    (h1 : u.cell = some c) : refPort d u = getPort d c u.port := by
  unfold refPort
  rw [h1]

/-- Adding a fresh unconnected port to an existing cell preserves the
invariants. -/
theorem Inv_setPort_fresh {d : Design} {rc : CellId} {rn : String}
    {rcell : CellInfo} {pi : PortInfo} (hInv : Inv d)
    (hrc : getCell d rc = some rcell) (hlk : lookupA rn rcell.ports = none)
    (hpn : pi.net = none) : Inv (setPort d rc rn pi) := by
  have hgp_none : getPort d rc rn = none := by simp [getPort, hrc, hlk]
  have hrefne : ∀ (r : PortRef) (pj : PortInfo), refPort d r = some pj →
      ¬ (r.cell = some rc ∧ r.port = rn) := by
    intro r pj href hcontra
    rw [refPort_eq_getPort hcontra.1, hcontra.2, hgp_none] at href
    cases href
  constructor
  · intro k n hg
    rw [getNet_setPort] at hg
    obtain ⟨hdrv, husers⟩ := hInv.1 k n hg
    constructor
    · intro hcell
      obtain ⟨pj, href, hty, hnet⟩ := hdrv hcell
      exact ⟨pj, by rw [refPort_setPort_ne d pi (hrefne _ _ href)]; exact href,
        hty, hnet⟩
    · intro u hu
      obtain ⟨pj, href, hty, hnet⟩ := husers u hu
      exact ⟨pj, by rw [refPort_setPort_ne d pi (hrefne _ _ href)]; exact href,
        hty, hnet⟩
  · intro c p pj hgp
    by_cases hcp : c = rc ∧ p = rn
    · obtain ⟨rfl, rfl⟩ := hcp
      rw [getPort_setPort_self d _ _ (by simp [hrc])] at hgp
      cases hgp
      intro k hk
      rw [hpn] at hk
      cases hk
    · rw [getPort_setPort_ne d pi hcp] at hgp
      intro k hk
      obtain ⟨n, hn, hl⟩ := hInv.2 c p pj hgp k hk
      exact ⟨n, by rw [getNet_setPort]; exact hn, hl⟩

/-- The facts about the state just before the replaceTail dispatch of a
non-aliased replace_port: the replacement port holds the transferred net,
the old port is cleared, everything else resolves as in d. -/
theorem rewire_ground {d d1 : Design} {oc rc : CellId} {onm rn : String}
    {ocell rcell : CellInfo} {old0 rep0 : PortInfo}
    (hoc : getCell d oc = some ocell) ( _hop : lookupA onm ocell.ports = some old0)
    (hrc : getCell d rc = some rcell)
    (hrep : (lookupA rn rcell.ports = some rep0 ∧ d1 = d) ∨
            (lookupA rn rcell.ports = none ∧
             rep0 = { name := rn, type := old0.type, net := none } ∧
             d1 = setPort d rc rn { name := rn, type := old0.type, net := none }))
    (hne : ¬ (oc = rc ∧ onm = rn)) :
    getPort
      (setPort (setPort d1 rc rn { rep0 with net := old0.net }) oc onm
        { old0 with net := none }) rc rn = some { rep0 with net := old0.net } ∧
    getPort
      (setPort (setPort d1 rc rn { rep0 with net := old0.net }) oc onm
        { old0 with net := none }) oc onm = some { old0 with net := none } ∧
    (∀ r : PortRef, ¬ (r.cell = some oc ∧ r.port = onm) →
      ¬ (r.cell = some rc ∧ r.port = rn) →
      refPort
        (setPort (setPort d1 rc rn { rep0 with net := old0.net }) oc onm
          { old0 with net := none }) r = refPort d r) ∧
    (∀ k, getNet
      (setPort (setPort d1 rc rn { rep0 with net := old0.net }) oc onm
        { old0 with net := none }) k = getNet d k) ∧
    (∀ c p, ¬ (c = oc ∧ p = onm) → ¬ (c = rc ∧ p = rn) →
      getPort
        (setPort (setPort d1 rc rn { rep0 with net := old0.net }) oc onm
          { old0 with net := none }) c p = getPort d c p) := by
  have hne' : ¬ (rc = oc ∧ rn = onm) := fun h => hne ⟨h.1.symm, h.2.symm⟩
  have hrc1 : (getCell d1 rc).isSome := by
    rcases hrep with ⟨_, hd1⟩ | ⟨_, _, hd1⟩ <;> rw [hd1]
    · simp [hrc]
    · rw [getCell_isSome_setPort]
      simp [hrc]
  have hoc1 : (getCell d1 oc).isSome := by
    rcases hrep with ⟨_, hd1⟩ | ⟨_, _, hd1⟩ <;> rw [hd1]
    · simp [hoc]
    · rw [getCell_isSome_setPort]
      simp [hoc]
  have hfr : ∀ c p, ¬ (c = rc ∧ p = rn) → getPort d1 c p = getPort d c p := by
    rcases hrep with ⟨_, hd1⟩ | ⟨_, _, hd1⟩ <;> rw [hd1]
    · intro c p _
      rfl
    · intro c p h
      exact getPort_setPort_ne _ _ h
  refine ⟨?_, ?_, ?_, ?_, ?_⟩
  · rw [getPort_setPort_ne _ _ hne']
    exact getPort_setPort_self _ _ _ hrc1
  · refine getPort_setPort_self _ _ _ ?_
    rw [getCell_isSome_setPort]
    exact hoc1
  · intro r h1 h2
    rw [refPort_setPort_ne _ _ h1, refPort_setPort_ne _ _ h2]
    unfold refPort
    cases hr : r.cell with
    | none => rfl
    | some c =>
      refine hfr c r.port ?_
      intro hcp
      exact h2 ⟨by rw [hr, hcp.1], hcp.2⟩
  · intro k
    rw [getNet_setPort, getNet_setPort]
    rcases hrep with ⟨_, hd1⟩ | ⟨_, _, hd1⟩
    · rw [hd1]
    · rw [hd1, getNet_setPort]
  · intro c p h1 h2
    rw [getPort_setPort_ne _ _ h1, getPort_setPort_ne _ _ h2]
    exact hfr c p h2

/-- Moving an OUT port's connectivity to an unconnected (or fresh)
replacement port preserves the invariants. -/
theorem Inv_rewire_out {d d1 : Design} {oc rc : CellId} {onm rn : String}
    {ocell rcell : CellInfo} {old0 rep0 : PortInfo} {nid : NetId} {n : NetInfo}
    (hInv : Inv d)
    (hoc : getCell d oc = some ocell) (hop : lookupA onm ocell.ports = some old0)
    (hrc : getCell d rc = some rcell)
    (hrep : (lookupA rn rcell.ports = some rep0 ∧ d1 = d) ∨
            (lookupA rn rcell.ports = none ∧
             rep0 = { name := rn, type := old0.type, net := none } ∧
             d1 = setPort d rc rn { name := rn, type := old0.type, net := none }))
    (hne : ¬ (oc = rc ∧ onm = rn))
    (hrpn : rep0.net = none)
    (hT : old0.type = PortType.PORT_OUT)
    (hrt : rep0.type = old0.type)
    (hnet : old0.net = some nid)
    (hg : getNet d nid = some n) :
    Inv (setNet
      (setPort (setPort d1 rc rn { rep0 with net := old0.net }) oc onm
        { old0 with net := none }) nid
      { n with driver := { cell := some rc, port := rn } }) := by
  obtain ⟨G1, G2, G3, G4, G5⟩ := rewire_ground hoc hop hrc hrep hne
  have hgetold : getPort d oc onm = some old0 := by simp [getPort, hoc, hop]
  have hrepval : (getPort d rc rn = some rep0 ∧ rep0.net = none) ∨
      getPort d rc rn = none := by
    rcases hrep with ⟨hlk, _⟩ | ⟨hlk, _, _⟩
    · exact Or.inl ⟨by simp [getPort, hrc, hlk], hrpn⟩
    · exact Or.inr (by simp [getPort, hrc, hlk])
  have hnoref_rc : ∀ (r : PortRef) (pj : PortInfo) (k : NetId),
      refPort d r = some pj → pj.net = some k →
      ¬ (r.cell = some rc ∧ r.port = rn) := by
    intro r pj k href hpnet hcontra
    rw [refPort_eq_getPort hcontra.1, hcontra.2] at href
    rcases hrepval with ⟨hv, hn0⟩ | hv
    · rw [hv] at href
      cases href
      rw [hn0] at hpnet
      cases hpnet
    · rw [hv] at href
      cases href
  have hnoref_oc_u : ∀ (r : PortRef) (pj : PortInfo),
      refPort d r = some pj →
      (pj.type = PortType.PORT_IN ∨ pj.type = PortType.PORT_INOUT) →
      ¬ (r.cell = some oc ∧ r.port = onm) := by
    intro r pj href hty hcontra
    rw [refPort_eq_getPort hcontra.1, hcontra.2, hgetold] at href
    cases href
    rcases hty with h | h <;> rw [hT] at h <;> cases h
  have hnoref_oc_net : ∀ (r : PortRef) (pj : PortInfo) (k : NetId),
      refPort d r = some pj → pj.net = some k → k ≠ nid →
      ¬ (r.cell = some oc ∧ r.port = onm) := by
    intro r pj k href hpnet hk hcontra
    rw [refPort_eq_getPort hcontra.1, hcontra.2, hgetold] at href
    cases href
    rw [hnet] at hpnet
    cases hpnet
    exact hk rfl
  have hdrv_eq : n.driver = { cell := some oc, port := onm } := by
    obtain ⟨n', hn', hl⟩ := hInv.2 oc onm old0 hgetold nid hnet
    rw [hg] at hn'
    cases hn'
    rw [hT] at hl
    exact hl
  constructor
  · intro k m hgm
    by_cases hk : k = nid
    · subst hk
      rw [getNet_setNet_self] at hgm
      cases hgm
      constructor
      · intro _
        refine ⟨{ rep0 with net := old0.net }, ?_, ?_, ?_⟩
        · rw [refPort_setNet]
          rw [refPort_eq_getPort (show ({ cell := some rc, port := rn } : PortRef).cell
            = some rc from rfl)]
          exact G1
        · left
          show rep0.type = PortType.PORT_OUT
          rw [hrt]
          exact hT
        · show old0.net = some k
          exact hnet
      · intro u hu
        obtain ⟨pj, href, hty, hpnet⟩ := (hInv.1 k n hg).2 u hu
        refine ⟨pj, ?_, hty, hpnet⟩
        rw [refPort_setNet,
          G3 u (hnoref_oc_u u pj href hty) (hnoref_rc u pj k href hpnet)]
        exact href
    · rw [getNet_setNet_ne _ _ hk, G4] at hgm
      obtain ⟨hdrv, husers⟩ := hInv.1 k m hgm
      constructor
      · intro hcell
        obtain ⟨pj, href, hty, hpnet⟩ := hdrv hcell
        refine ⟨pj, ?_, hty, hpnet⟩
        rw [refPort_setNet,
          G3 _ (hnoref_oc_net _ pj k href hpnet hk) (hnoref_rc _ pj k href hpnet)]
        exact href
      · intro u hu
        obtain ⟨pj, href, hty, hpnet⟩ := husers u hu
        refine ⟨pj, ?_, hty, hpnet⟩
        rw [refPort_setNet,
          G3 _ (hnoref_oc_net _ pj k href hpnet hk) (hnoref_rc _ pj k href hpnet)]
        exact href
  · intro c p pj hgp
    rw [getPort_setNet] at hgp
    by_cases hcp1 : c = oc ∧ p = onm
    · obtain ⟨rfl, rfl⟩ := hcp1
      rw [G2] at hgp
      cases hgp
      intro k hk
      simp at hk
    · by_cases hcp2 : c = rc ∧ p = rn
      · obtain ⟨rfl, rfl⟩ := hcp2
        rw [G1] at hgp
        cases hgp
        intro k hk
        have hk' : old0.net = some k := hk
        rw [hnet] at hk'
        cases hk'
        refine ⟨_, getNet_setNet_self _ _ _, ?_⟩
        show listsPort c p rep0.type { n with driver := { cell := some c, port := p } }
        rw [hrt, hT]
        show ({ n with driver := { cell := some c, port := p } } : NetInfo).driver =
          { cell := some c, port := p }
        rfl
      · rw [G5 c p hcp1 hcp2] at hgp
        intro k hk
        obtain ⟨nk, hnk, hlk⟩ := hInv.2 c p pj hgp k hk
        by_cases hknid : k = nid
        · subst hknid
          rw [hg] at hnk
          cases hnk
          refine ⟨_, getNet_setNet_self _ _ _, ?_⟩
          cases ht : pj.type with
          | PORT_OUT =>
            rw [ht] at hlk
            have hcontra : ({ cell := some oc, port := onm } : PortRef) =
                { cell := some c, port := p } := hdrv_eq.symm.trans hlk
            simp only [PortRef.mk.injEq, Option.some.injEq] at hcontra
            exact absurd ⟨hcontra.1.symm, hcontra.2.symm⟩ hcp1
          | PORT_IN =>
            rw [ht] at hlk
            exact hlk
          | PORT_INOUT =>
            rw [ht] at hlk
            exact hlk
        · rw [getNet_setNet_ne _ _ hknid, G4]
          exact ⟨nk, hnk, hlk⟩

/-- Moving an IN port's connectivity to an unconnected (or fresh)
replacement port preserves the invariants. -/
theorem Inv_rewire_in {d d1 : Design} {oc rc : CellId} {onm rn : String}
    {ocell rcell : CellInfo} {old0 rep0 : PortInfo} {nid : NetId} {n : NetInfo}
    (hInv : Inv d)
    (hoc : getCell d oc = some ocell) (hop : lookupA onm ocell.ports = some old0)
    (hrc : getCell d rc = some rcell)
    (hrep : (lookupA rn rcell.ports = some rep0 ∧ d1 = d) ∨
            (lookupA rn rcell.ports = none ∧
             rep0 = { name := rn, type := old0.type, net := none } ∧
             d1 = setPort d rc rn { name := rn, type := old0.type, net := none }))
    (hne : ¬ (oc = rc ∧ onm = rn))
    (hrpn : rep0.net = none)
    (hT : old0.type = PortType.PORT_IN)
    (hrt : rep0.type = old0.type)
    (hnet : old0.net = some nid)
    (hg : getNet d nid = some n) :
    Inv (setNet
      (setPort (setPort d1 rc rn { rep0 with net := old0.net }) oc onm
        { old0 with net := none }) nid
      { n with users := n.users.map (fun load =>
          if load.cell = some oc ∧ load.port = onm then
            { cell := some rc, port := rn }
          else load) }) := by
  obtain ⟨G1, G2, G3, G4, G5⟩ := rewire_ground hoc hop hrc hrep hne
  have hgetold : getPort d oc onm = some old0 := by simp [getPort, hoc, hop]
  have hrepval : (getPort d rc rn = some rep0 ∧ rep0.net = none) ∨
      getPort d rc rn = none := by
    rcases hrep with ⟨hlk, _⟩ | ⟨hlk, _, _⟩
    · exact Or.inl ⟨by simp [getPort, hrc, hlk], hrpn⟩
    · exact Or.inr (by simp [getPort, hrc, hlk])
  have hnoref_rc : ∀ (r : PortRef) (pj : PortInfo) (k : NetId),
      refPort d r = some pj → pj.net = some k →
      ¬ (r.cell = some rc ∧ r.port = rn) := by
    intro r pj k href hpnet hcontra
    rw [refPort_eq_getPort hcontra.1, hcontra.2] at href
    rcases hrepval with ⟨hv, hn0⟩ | hv
    · rw [hv] at href
      cases href
      rw [hn0] at hpnet
      cases hpnet
    · rw [hv] at href
      cases href
  have hnoref_oc_d : ∀ (r : PortRef) (pj : PortInfo),
      refPort d r = some pj →
      (pj.type = PortType.PORT_OUT ∨ pj.type = PortType.PORT_INOUT) →
      ¬ (r.cell = some oc ∧ r.port = onm) := by
    intro r pj href hty hcontra
    rw [refPort_eq_getPort hcontra.1, hcontra.2, hgetold] at href
    cases href
    rcases hty with h | h <;> rw [hT] at h <;> cases h
  have hnoref_oc_net : ∀ (r : PortRef) (pj : PortInfo) (k : NetId),
      refPort d r = some pj → pj.net = some k → k ≠ nid →
      ¬ (r.cell = some oc ∧ r.port = onm) := by
    intro r pj k href hpnet hk hcontra
    rw [refPort_eq_getPort hcontra.1, hcontra.2, hgetold] at href
    cases href
    rw [hnet] at hpnet
    cases hpnet
    exact hk rfl
  have hmem_old : ({ cell := some oc, port := onm } : PortRef) ∈ n.users := by
    obtain ⟨n', hn', hl⟩ := hInv.2 oc onm old0 hgetold nid hnet
    rw [hg] at hn'
    cases hn'
    rw [hT] at hl
    exact hl
  constructor
  · intro k m hgm
    by_cases hk : k = nid
    · subst hk
      rw [getNet_setNet_self] at hgm
      cases hgm
      constructor
      · intro hcell
        obtain ⟨pj, href, hty, hpnet⟩ := (hInv.1 k n hg).1 hcell
        refine ⟨pj, ?_, hty, hpnet⟩
        rw [refPort_setNet,
          G3 _ (hnoref_oc_d _ pj href hty) (hnoref_rc _ pj k href hpnet)]
        exact href
      · intro u' hu'
        obtain ⟨u, hu, rfl⟩ := List.mem_map.mp hu'
        by_cases hmatch : u.cell = some oc ∧ u.port = onm
        · show userOkP _ k
            (if u.cell = some oc ∧ u.port = onm then
              ({ cell := some rc, port := rn } : PortRef)
            else u)
          rw [if_pos hmatch]
          refine ⟨{ rep0 with net := old0.net }, ?_, ?_, ?_⟩
          · rw [refPort_setNet]
            rw [refPort_eq_getPort
              (show ({ cell := some rc, port := rn } : PortRef).cell = some rc from rfl)]
            exact G1
          · left
            show rep0.type = PortType.PORT_IN
            rw [hrt]
            exact hT
          · show old0.net = some k
            exact hnet
        · show userOkP _ k
            (if u.cell = some oc ∧ u.port = onm then
              ({ cell := some rc, port := rn } : PortRef)
            else u)
          rw [if_neg hmatch]
          obtain ⟨pj, href, hty, hpnet⟩ := (hInv.1 k n hg).2 u hu
          refine ⟨pj, ?_, hty, hpnet⟩
          rw [refPort_setNet, G3 u hmatch (hnoref_rc u pj k href hpnet)]
          exact href
    · rw [getNet_setNet_ne _ _ hk, G4] at hgm
      obtain ⟨hdrv, husers⟩ := hInv.1 k m hgm
      constructor
      · intro hcell
        obtain ⟨pj, href, hty, hpnet⟩ := hdrv hcell
        refine ⟨pj, ?_, hty, hpnet⟩
        rw [refPort_setNet,
          G3 _ (hnoref_oc_net _ pj k href hpnet hk) (hnoref_rc _ pj k href hpnet)]
        exact href
      · intro u hu
        obtain ⟨pj, href, hty, hpnet⟩ := husers u hu
        refine ⟨pj, ?_, hty, hpnet⟩
        rw [refPort_setNet,
          G3 _ (hnoref_oc_net _ pj k href hpnet hk) (hnoref_rc _ pj k href hpnet)]
        exact href
  · intro c p pj hgp
    rw [getPort_setNet] at hgp
    by_cases hcp1 : c = oc ∧ p = onm
    · obtain ⟨rfl, rfl⟩ := hcp1
      rw [G2] at hgp
      cases hgp
      intro k hk
      simp at hk
    · by_cases hcp2 : c = rc ∧ p = rn
      · obtain ⟨rfl, rfl⟩ := hcp2
        rw [G1] at hgp
        cases hgp
        intro k hk
        have hk' : old0.net = some k := hk
        rw [hnet] at hk'
        cases hk'
        refine ⟨_, getNet_setNet_self _ _ _, ?_⟩
        show listsPort c p rep0.type _
        rw [hrt, hT]
        show ({ cell := some c, port := p } : PortRef) ∈ n.users.map (fun load =>
          if load.cell = some oc ∧ load.port = onm then
            ({ cell := some c, port := p } : PortRef)
          else load)
        have hval : (fun load =>
            if load.cell = some oc ∧ load.port = onm then
              ({ cell := some c, port := p } : PortRef)
            else load) { cell := some oc, port := onm } =
            { cell := some c, port := p } := by simp
        have hmm := List.mem_map_of_mem (fun load =>
            if load.cell = some oc ∧ load.port = onm then
              ({ cell := some c, port := p } : PortRef)
            else load) hmem_old
        rw [hval] at hmm
        exact hmm
      · rw [G5 c p hcp1 hcp2] at hgp
        intro k hk
        obtain ⟨nk, hnk, hlk⟩ := hInv.2 c p pj hgp k hk
        by_cases hknid : k = nid
        · subst hknid
          rw [hg] at hnk
          cases hnk
          refine ⟨_, getNet_setNet_self _ _ _, ?_⟩
          cases ht : pj.type with
          | PORT_OUT =>
            rw [ht] at hlk
            exact hlk
          | PORT_IN =>
            rw [ht] at hlk
            show ({ cell := some c, port := p } : PortRef) ∈ n.users.map (fun load =>
              if load.cell = some oc ∧ load.port = onm then
                ({ cell := some rc, port := rn } : PortRef)
              else load)
            have hcond : ¬ (({ cell := some c, port := p } : PortRef).cell = some oc ∧
                ({ cell := some c, port := p } : PortRef).port = onm) := by
              intro hc
              have h1 : c = oc := by
                have := hc.1
                simp only [Option.some.injEq] at this
                exact this
              exact hcp1 ⟨h1, hc.2⟩
            have hval : (fun load =>
                if load.cell = some oc ∧ load.port = onm then
                  ({ cell := some rc, port := rn } : PortRef)
                else load) { cell := some c, port := p } =
                { cell := some c, port := p } := by
              show (if ({ cell := some c, port := p } : PortRef).cell = some oc ∧
                  ({ cell := some c, port := p } : PortRef).port = onm then
                  ({ cell := some rc, port := rn } : PortRef)
                else { cell := some c, port := p }) = { cell := some c, port := p }
              rw [if_neg hcond]
            have hmm := List.mem_map_of_mem (fun load =>
                if load.cell = some oc ∧ load.port = onm then
                  ({ cell := some rc, port := rn } : PortRef)
                else load) hlk
            rw [hval] at hmm
            exact hmm
          | PORT_INOUT =>
            rw [ht] at hlk
            show ({ cell := some c, port := p } : PortRef) ∈ n.users.map (fun load =>
              if load.cell = some oc ∧ load.port = onm then
                ({ cell := some rc, port := rn } : PortRef)
              else load)
            have hcond : ¬ (({ cell := some c, port := p } : PortRef).cell = some oc ∧
                ({ cell := some c, port := p } : PortRef).port = onm) := by
              intro hc
              have h1 : c = oc := by
                have := hc.1
                simp only [Option.some.injEq] at this
                exact this
              exact hcp1 ⟨h1, hc.2⟩
            have hval : (fun load =>
                if load.cell = some oc ∧ load.port = onm then
                  ({ cell := some rc, port := rn } : PortRef)
                else load) { cell := some c, port := p } =
                { cell := some c, port := p } := by
              show (if ({ cell := some c, port := p } : PortRef).cell = some oc ∧
                  ({ cell := some c, port := p } : PortRef).port = onm then
                  ({ cell := some rc, port := rn } : PortRef)
                else { cell := some c, port := p }) = { cell := some c, port := p }
              rw [if_neg hcond]
            have hmm := List.mem_map_of_mem (fun load =>
                if load.cell = some oc ∧ load.port = onm then
                  ({ cell := some rc, port := rn } : PortRef)
                else load) hlk
            rw [hval] at hmm
            exact hmm
        · rw [getNet_setNet_ne _ _ hknid, G4]
          exact ⟨nk, hnk, hlk⟩

/-- Two cells each driving their own net through an OUT port; the
replacement target port is already connected, exhibiting why the
unconnected-new-port precondition of C4 is needed. -/
def exPre : Design :=
  { cells := [("P0", 0), ("P1", 1)]
  , nets := [("pn1", 1), ("pn2", 2)]
  , cellHeap :=
      [ (0, { name := "P0", ports :=
          [("po", { name := "po", type := PortType.PORT_OUT, net := some 1 })] })
      , (1, { name := "P1", ports :=
          [("qo", { name := "qo", type := PortType.PORT_OUT, net := some 2 })] }) ]
  , netHeap :=
      [ (1, { name := "pn1", driver := { cell := some 0, port := "po" }, users := [] })
      , (2, { name := "pn2", driver := { cell := some 1, port := "qo" }, users := [] }) ] }

/-- C4: replace_port preserves the data-model invariants under the
precondition that the replacement port, where it pre-exists, is
unconnected; and the precondition is needed: on exPre, whose replacement
port is connected, the call succeeds and breaks the invariants (the
former net of the overwritten port keeps a driver entry naming a port
that no longer references it). -/
theorem replace_port_inv_preservation :
    (∀ (d : Design) (oc : CellId) (onm : String) (rc : CellId) (rn : String)
      (d' : Design),
      Inv d →
      (∀ rcell rp, getCell d rc = some rcell → lookupA rn rcell.ports = some rp →
        rp.net = none) →
      replace_port d oc onm rc rn = some d' → Inv d') ∧
    (Inv exPre ∧ ∀ d', replace_port exPre 0 "po" 1 "qo" = some d' → ¬ Inv d') := by
  constructor
  · intro d oc onm rc rn d' hInv hPre hrun
    cases hoc : getCell d oc with
    | none => simp [replace_port, hoc] at hrun
    | some ocell =>
    cases hop : lookupA onm ocell.ports with
    | none =>
      rw [replace_port_no_port hoc hop] at hrun
      cases hrun
      exact hInv
    | some old0 =>
    cases hrc : getCell d rc with
    | none => simp [replace_port, hoc, hop, hrc] at hrun
    | some rcell =>
    by_cases halias : oc = rc ∧ onm = rn
    · obtain ⟨rfl, rfl⟩ := halias
      have hcells : rcell = ocell := by
        rw [hoc] at hrc
        cases hrc
        rfl
      subst hcells
      have hnet0 : old0.net = none := hPre rcell old0 hrc hop
      rw [replace_port_shape_alias hoc hop] at hrun
      have heta : ({ old0 with net := none } : PortInfo) = old0 := by
        rw [← hnet0]
      rw [heta, setPort_eq_self d (by simp [getPort, hoc, hop])] at hrun
      by_cases hio : old0.type = PortType.PORT_INOUT
      · rw [replaceTail_inout old0 hio] at hrun
        cases hrun
      · rw [replaceTail_noop old0 hnet0 hio] at hrun
        cases hrun
        exact hInv
    · cases hlk : lookupA rn rcell.ports with
      | some rp0 =>
        have hrpn : rp0.net = none := hPre rcell rp0 hrc hlk
        by_cases hty : old0.type = rp0.type
        · cases hT : old0.type with
          | PORT_INOUT =>
            rw [hT] at hty
            rw [replace_port_shape_ne hoc hop hrc (Or.inl ⟨hlk, rfl⟩) halias
                (by rw [hT, ← hty]),
              replaceTail_inout { rp0 with net := old0.net }
                (show rp0.type = PortType.PORT_INOUT from hty.symm)] at hrun
            cases hrun
          | PORT_OUT =>
            rw [hT] at hty
            have hrT : rp0.type = PortType.PORT_OUT := hty.symm
            cases hnet : old0.net with
            | none =>
              have hshape := replace_port_shape_ne hoc hop hrc (Or.inl ⟨hlk, rfl⟩)
                halias (by rw [hT, ← hty])
              rw [hnet] at hshape
              rw [hshape, replaceTail_noop { rp0 with net := none } rfl
                (by show ¬ rp0.type = PortType.PORT_INOUT; rw [hrT]; simp)] at hrun
              cases hrun
              have e1 : ({ rp0 with net := none } : PortInfo) = rp0 := by
                rw [← hrpn]
              have e2 : ({ old0 with net := none } : PortInfo) = old0 := by
                rw [← hnet]
              rw [e1, e2, setPort_eq_self d (by simp [getPort, hrc, hlk]),
                setPort_eq_self d (by simp [getPort, hoc, hop])]
              exact hInv
            | some nid =>
              have hshape := replace_port_shape_ne hoc hop hrc (Or.inl ⟨hlk, rfl⟩)
                halias (by rw [hT, ← hty])
              rw [hnet] at hshape
              rw [hshape] at hrun
              cases hgd : getNet d nid with
              | none =>
                have hgd3 : getNet (setPort (setPort d rc rn
                    { rp0 with net := some nid }) oc onm
                    { old0 with net := none }) nid = none := by
                  rw [getNet_setPort, getNet_setPort]
                  exact hgd
                rw [replaceTail_dangling { rp0 with net := some nid } rfl hgd3
                  (by show ¬ rp0.type = PortType.PORT_INOUT; rw [hrT]; simp)] at hrun
                cases hrun
              | some n =>
                have hgd3 : getNet (setPort (setPort d rc rn
                    { rp0 with net := some nid }) oc onm
                    { old0 with net := none }) nid = some n := by
                  rw [getNet_setPort, getNet_setPort]
                  exact hgd
                rw [replaceTail_out { rp0 with net := some nid }
                  (show rp0.type = PortType.PORT_OUT from hrT) rfl hgd3] at hrun
                cases hrun
                have hres := Inv_rewire_out hInv hoc hop hrc (Or.inl ⟨hlk, rfl⟩)
                  halias hrpn hT (by rw [hT, ← hty]) hnet hgd
                rw [hnet] at hres
                exact hres
          | PORT_IN =>
            rw [hT] at hty
            have hrT : rp0.type = PortType.PORT_IN := hty.symm
            cases hnet : old0.net with
            | none =>
              have hshape := replace_port_shape_ne hoc hop hrc (Or.inl ⟨hlk, rfl⟩)
                halias (by rw [hT, ← hty])
              rw [hnet] at hshape
              rw [hshape, replaceTail_noop { rp0 with net := none } rfl
                (by show ¬ rp0.type = PortType.PORT_INOUT; rw [hrT]; simp)] at hrun
              cases hrun
              have e1 : ({ rp0 with net := none } : PortInfo) = rp0 := by
                rw [← hrpn]
              have e2 : ({ old0 with net := none } : PortInfo) = old0 := by
                rw [← hnet]
              rw [e1, e2, setPort_eq_self d (by simp [getPort, hrc, hlk]),
                setPort_eq_self d (by simp [getPort, hoc, hop])]
              exact hInv
            | some nid =>
              have hshape := replace_port_shape_ne hoc hop hrc (Or.inl ⟨hlk, rfl⟩)
                halias (by rw [hT, ← hty])
              rw [hnet] at hshape
              rw [hshape] at hrun
              cases hgd : getNet d nid with
              | none =>
                have hgd3 : getNet (setPort (setPort d rc rn
                    { rp0 with net := some nid }) oc onm
                    { old0 with net := none }) nid = none := by
                  rw [getNet_setPort, getNet_setPort]
                  exact hgd
                rw [replaceTail_dangling { rp0 with net := some nid } rfl hgd3
                  (by show ¬ rp0.type = PortType.PORT_INOUT; rw [hrT]; simp)] at hrun
                cases hrun
              | some n =>
                have hgd3 : getNet (setPort (setPort d rc rn
                    { rp0 with net := some nid }) oc onm
                    { old0 with net := none }) nid = some n := by
                  rw [getNet_setPort, getNet_setPort]
                  exact hgd
                rw [replaceTail_in { rp0 with net := some nid }
                  (show rp0.type = PortType.PORT_IN from hrT) rfl hgd3] at hrun
                cases hrun
                have hres := Inv_rewire_in hInv hoc hop hrc (Or.inl ⟨hlk, rfl⟩)
                  halias hrpn hT (by rw [hT, ← hty]) hnet hgd
                rw [hnet] at hres
                exact hres
        · rw [replace_port_type_mismatch hoc hop hrc hlk hty] at hrun
          cases hrun
      | none =>
        cases hT : old0.type with
        | PORT_INOUT =>
          rw [replace_port_shape_ne hoc hop hrc (Or.inr ⟨hlk, rfl, rfl⟩) halias rfl,
            replaceTail_inout
              { ({ name := rn, type := old0.type, net := none } : PortInfo) with
                net := old0.net }
              (show old0.type = PortType.PORT_INOUT from hT)] at hrun
          cases hrun
        | PORT_OUT =>
          cases hnet : old0.net with
          | none =>
            have hshape := replace_port_shape_ne hoc hop hrc (Or.inr ⟨hlk, rfl, rfl⟩)
              halias rfl
            rw [hnet] at hshape
            rw [hshape, replaceTail_noop
              { ({ name := rn, type := old0.type, net := none } : PortInfo) with
                net := none } rfl
              (by show ¬ old0.type = PortType.PORT_INOUT; rw [hT]; simp)] at hrun
            cases hrun
            have e1 : ({ ({ name := rn, type := old0.type, net := none } : PortInfo)
                with net := none } : PortInfo) =
                { name := rn, type := old0.type, net := none } := by simp
            have e2 : ({ old0 with net := none } : PortInfo) = old0 := by
              rw [← hnet]
            have hfact : getPort (setPort d rc rn
                { name := rn, type := old0.type, net := none }) oc onm =
                some old0 := by
              rw [getPort_setPort_ne _ _ halias]
              simp [getPort, hoc, hop]
            rw [e1, e2, setPort_setPort_same, setPort_eq_self _ hfact]
            exact Inv_setPort_fresh hInv hrc hlk rfl
          | some nid =>
            have hshape := replace_port_shape_ne hoc hop hrc (Or.inr ⟨hlk, rfl, rfl⟩)
              halias rfl
            rw [hnet] at hshape
            rw [hshape] at hrun
            cases hgd : getNet d nid with
            | none =>
              have hgd3 : getNet (setPort (setPort (setPort d rc rn
                  { name := rn, type := old0.type, net := none }) rc rn
                  { ({ name := rn, type := old0.type, net := none } : PortInfo) with
                    net := some nid }) oc onm
                  { old0 with net := none }) nid = none := by
                rw [getNet_setPort, getNet_setPort, getNet_setPort]
                exact hgd
              rw [replaceTail_dangling
                { ({ name := rn, type := old0.type, net := none } : PortInfo) with
                  net := some nid } rfl hgd3
                (by show ¬ old0.type = PortType.PORT_INOUT; rw [hT]; simp)] at hrun
              cases hrun
            | some n =>
              have hgd3 : getNet (setPort (setPort (setPort d rc rn
                  { name := rn, type := old0.type, net := none }) rc rn
                  { ({ name := rn, type := old0.type, net := none } : PortInfo) with
                    net := some nid }) oc onm
                  { old0 with net := none }) nid = some n := by
                rw [getNet_setPort, getNet_setPort, getNet_setPort]
                exact hgd
              rw [replaceTail_out
                { ({ name := rn, type := old0.type, net := none } : PortInfo) with
                  net := some nid }
                (show old0.type = PortType.PORT_OUT from hT) rfl hgd3] at hrun
              cases hrun
              have hres := Inv_rewire_out hInv hoc hop hrc
                (Or.inr ⟨hlk, rfl, rfl⟩) halias rfl hT rfl hnet hgd
              rw [hnet] at hres
              exact hres
        | PORT_IN =>
          cases hnet : old0.net with
          | none =>
            have hshape := replace_port_shape_ne hoc hop hrc (Or.inr ⟨hlk, rfl, rfl⟩)
              halias rfl
            rw [hnet] at hshape
            rw [hshape, replaceTail_noop
              { ({ name := rn, type := old0.type, net := none } : PortInfo) with
                net := none } rfl
              (by show ¬ old0.type = PortType.PORT_INOUT; rw [hT]; simp)] at hrun
            cases hrun
            have e1 : ({ ({ name := rn, type := old0.type, net := none } : PortInfo)
                with net := none } : PortInfo) =
                { name := rn, type := old0.type, net := none } := by simp
            have e2 : ({ old0 with net := none } : PortInfo) = old0 := by
              rw [← hnet]
            have hfact : getPort (setPort d rc rn
                { name := rn, type := old0.type, net := none }) oc onm =
                some old0 := by
              rw [getPort_setPort_ne _ _ halias]
              simp [getPort, hoc, hop]
            rw [e1, e2, setPort_setPort_same, setPort_eq_self _ hfact]
            exact Inv_setPort_fresh hInv hrc hlk rfl
          | some nid =>
            have hshape := replace_port_shape_ne hoc hop hrc (Or.inr ⟨hlk, rfl, rfl⟩)
              halias rfl
            rw [hnet] at hshape
            rw [hshape] at hrun
            cases hgd : getNet d nid with
            | none =>
              have hgd3 : getNet (setPort (setPort (setPort d rc rn
                  { name := rn, type := old0.type, net := none }) rc rn
                  { ({ name := rn, type := old0.type, net := none } : PortInfo) with
                    net := some nid }) oc onm
                  { old0 with net := none }) nid = none := by
                rw [getNet_setPort, getNet_setPort, getNet_setPort]
                exact hgd
              rw [replaceTail_dangling
                { ({ name := rn, type := old0.type, net := none } : PortInfo) with
                  net := some nid } rfl hgd3
                (by show ¬ old0.type = PortType.PORT_INOUT; rw [hT]; simp)] at hrun
              cases hrun
            | some n =>
              have hgd3 : getNet (setPort (setPort (setPort d rc rn
                  { name := rn, type := old0.type, net := none }) rc rn
                  { ({ name := rn, type := old0.type, net := none } : PortInfo) with
                    net := some nid }) oc onm
                  { old0 with net := none }) nid = some n := by
                rw [getNet_setPort, getNet_setPort, getNet_setPort]
                exact hgd
              rw [replaceTail_in
                { ({ name := rn, type := old0.type, net := none } : PortInfo) with
                  net := some nid }
                (show old0.type = PortType.PORT_IN from hT) rfl hgd3] at hrun
              cases hrun
              have hres := Inv_rewire_in hInv hoc hop hrc
                (Or.inr ⟨hlk, rfl, rfl⟩) halias rfl hT rfl hnet hgd
              rw [hnet] at hres
              exact hres
  · constructor
    · exact Inv_of_invB _ (by decide)
    · have hcomp : (replace_port exPre 0 "po" 1 "qo").map invB = some false := by
        decide
      intro d' h hInv'
      rw [h] at hcomp
      simp only [Option.map_some', Option.some.injEq] at hcomp
      rw [invB_of_Inv d' hInv'] at hcomp
      cases hcomp

/-- C4 witness: the preservation applied on exRep (whose replacement
target port w is unconnected): the invariants hold before and after
replace_port exRep 1 u 2 w. -/
theorem replace_port_inv_preservation_witness :
    invB exRep = true ∧ (replace_port exRep 1 "u" 2 "w").map invB = some true := by
  refine ⟨by decide, ?_⟩
  cases hx : replace_port exRep 1 "u" 2 "w" with
  | none => exact absurd hx (by decide)
  | some d' =>
    have hInv' := replace_port_inv_preservation.1 exRep 1 "u" 2 "w" d'
      (Inv_of_invB _ (by decide))
      (fun rcell rp hg hl => by
        have hgc : getCell exRep 2 =
            some (CellInfo.mk "C" [("w", PortInfo.mk "w" PortType.PORT_IN none)]) := by
          decide
        rw [hgc] at hg
        cases hg
        have h3 : PortInfo.mk "w" PortType.PORT_IN none = rp := Option.some.inj hl
        rw [← h3])
      hx
    simp only [Option.map_some', Option.some.injEq]
    exact invB_of_Inv d' hInv'

/-! ### C1: connect_ports naming and collision behaviour -/

/-- Successful connect_port on an unconnected existing port stores the
net id into that port. -/
theorem connect_port_sets_port {d d' : Design} {c : CellId} {p : String}
    {ci : CellInfo} {port : PortInfo} {nid : NetId}
    (hc : getCell d c = some ci) (hp : lookupA p ci.ports = some port)
    (h : connect_port d (some nid) c p = some d') :
    getPort d' c p = some { port with net := some nid } := by
  unfold connect_port at h
  simp only [hc, hp] at h
  cases hn : port.net with
  | some m => simp [hn] at h
  | none =>
    simp only [hn] at h
    cases hg : getNet (setPort d c p { port with net := some nid }) nid with
    | none => simp [hg] at h
    | some n =>
      simp only [hg] at h
      cases ht : port.type with
      | PORT_OUT =>
        simp only [ht] at h
        cases hd : n.driver.cell with
        | some k => simp [hd] at h
        | none =>
          simp only [hd, Option.some.injEq] at h
          subst h
          rw [getPort_setNet]
          have hps := getPort_setPort_self d p { port with net := some nid }
            (by rw [hc]; rfl)
          rw [ht] at hps
          exact hps
      | PORT_IN =>
        simp only [ht, Option.some.injEq] at h
        subst h
        rw [getPort_setNet]
        have hps := getPort_setPort_self d p { port with net := some nid }
          (by rw [hc]; rfl)
        rw [ht] at hps
        exact hps
      | PORT_INOUT =>
        simp only [ht, Option.some.injEq] at h
        subst h
        rw [getPort_setNet]
        have hps := getPort_setPort_self d p { port with net := some nid }
          (by rw [hc]; rfl)
        rw [ht] at hps
        exact hps

/-- The synthetic net record created by connect_ports before any store
update (design_utils.cc lines 131-133): name derived from the first
cell's name and port name, no driver, no users. -/
def conn_newNet (cell1 : CellInfo) (p1 : String) : NetInfo :=
  { name := cell1.name ++ "$conn$" ++ p1,
    driver := { cell := none, port := "" }, users := [] }

/-- The state right after the synthetic net is allocated on the heap
(before connect_port runs on port1 and before any Graph Store change). -/
def conn_d1 (d : Design) (cell1 : CellInfo) (p1 : String) : Design :=
  { d with netHeap := insertA (freshNetId d) (conn_newNet cell1 p1) d.netHeap }

/-- Port Q of cell A in the collision example: OUT, unconnected. -/
def exCPportQ : PortInfo := { name := "Q", type := PortType.PORT_OUT, net := none }

/-- Cell A of the collision example. -/
def exCPcellA : CellInfo := { name := "A", ports := [("Q", exCPportQ)] }

/-- Design whose net store already holds the identifier A$conn$Q that
connect_ports will derive for cell A and port Q. -/
def exCP : Design :=
  { cells := [("A", 0), ("B", 1)],
    nets := [("A$conn$Q", 7)],
    cellHeap := [(0, exCPcellA),
      (1, { name := "B", ports := [("D", { name := "D", type := PortType.PORT_IN, net := none })] })],
    netHeap := [(7, { name := "A$conn$Q", driver := { cell := none, port := "" }, users := [] })] }

/-- The state of the collision example after the synthetic net (id 8) is
allocated and port Q of cell A is connected to it as driver. -/
def exCPd2 : Design :=
  { cells := [("A", 0), ("B", 1)],
    nets := [("A$conn$Q", 7)],
    cellHeap := [(0, { name := "A", ports := [("Q", { name := "Q", type := PortType.PORT_OUT, net := some 8 })] }),
      (1, { name := "B", ports := [("D", { name := "D", type := PortType.PORT_IN, net := none })] })],
    netHeap := [(7, { name := "A$conn$Q", driver := { cell := none, port := "" }, users := [] }),
      (8, { name := "A$conn$Q", driver := { cell := some 0, port := "Q" }, users := [] })] }

/-- C1 counterexample: the Graph Store of exCP already contains a NET
named A$conn$Q, exactly the identifier connect_ports derives for
(cell A, port Q); the claim says any such collision is fatal before the
store is modified, but the call succeeds and silently overwrites the
store slot A$conn$Q to point at the new net (id 8): the source asserts
only against ctx->cells, and ctx->nets[name] = ... replaces the entry. -/
theorem connect_ports_collision_counterexample :
    lookupA "A$conn$Q" exCP.nets = some 7 ∧
    (connect_ports exCP 0 "Q" 1 "D").isSome = true ∧
    (connect_ports exCP 0 "Q" 1 "D").map (fun d2 => lookupA "A$conn$Q" d2.nets) =
      some (some 8) := by
  refine ⟨by decide, by decide, by decide⟩

/-- C1 (amended): when port1 exists on cell1, (a) if port1 is already
connected, connect_ports just connects port2 to that net and creates
nothing; (b) if port1 is unconnected, a net named cell1.name ++ "$conn$"
++ p1 is allocated and port1 connected to it, and then: if the derived
name collides with an existing CELL identifier the call is fatal, while
otherwise the net is installed in the net store under the derived name
(silently overwriting any existing net entry of that name) and port2 is
connected to the new net. -/
theorem connect_ports_amended {d : Design} {c1 : CellId} {p1 : String}
    (c2 : CellId) (p2 : String) {cell1 : CellInfo} {port1 : PortInfo}
    (hg : getCell d c1 = some cell1) (hp : lookupA p1 cell1.ports = some port1) :
    (∀ nid, port1.net = some nid →
      connect_ports d c1 p1 c2 p2 = connect_port d (some nid) c2 p2) ∧
    (port1.net = none →
      ∀ d2, connect_port (conn_d1 d cell1 p1) (some (freshNetId d)) c1 p1 =
          some d2 →
      ((∃ cid, lookupA (cell1.name ++ "$conn$" ++ p1) d2.cells = some cid) →
        connect_ports d c1 p1 c2 p2 = none) ∧
      (lookupA (cell1.name ++ "$conn$" ++ p1) d2.cells = none →
        lookupA (cell1.name ++ "$conn$" ++ p1)
          (insertA (cell1.name ++ "$conn$" ++ p1) (freshNetId d) d2.nets) =
          some (freshNetId d) ∧
        connect_ports d c1 p1 c2 p2 =
          connect_port { d2 with nets := insertA (cell1.name ++ "$conn$" ++ p1) (freshNetId d) d2.nets }
            (some (freshNetId d)) c2 p2)) := by
  constructor
  · intro nid hn
    simp [connect_ports, hg, hp, hn]
  · intro hn d2 hc2
    simp only [conn_d1, conn_newNet] at hc2
    constructor
    · rintro ⟨cid, hcid⟩
      simp only [connect_ports, hg, hp, hn, hc2, hcid]
    · intro hnone
      refine ⟨lookupA_insertA_self _ _ _, ?_⟩
      have hg1 : getCell (conn_d1 d cell1 p1) c1 = some cell1 := hg
      have hset := connect_port_sets_port hg1 hp (by
        simp only [conn_d1, conn_newNet]
        exact hc2)
      have hset3 : getPort ({ d2 with nets := insertA (cell1.name ++ "$conn$" ++ p1) (freshNetId d) d2.nets } : Design) c1 p1 =
          some { port1 with net := some (freshNetId d) } := hset
      simp only [connect_ports, hg, hp, hn, hc2, hnone, hset3]

/-- C1 witness: on exCP (whose net-name collision is benign) the amended
theorem's unconnected branch applies and gives the final call shape. -/
theorem connect_ports_amended_witness :
    connect_ports exCP 0 "Q" 1 "D" =
      connect_port { exCPd2 with nets := insertA (exCPcellA.name ++ "$conn$" ++ "Q") (freshNetId exCP) exCPd2.nets }
        (some (freshNetId exCP)) 1 "D" := by
  have h := connect_ports_amended 1 "D"
    (show getCell exCP 0 = some exCPcellA by decide)
    (show lookupA "Q" exCPcellA.ports = some exCPportQ by decide)
  have h2 := (h.2 (by decide) exCPd2 (by decide)).2 (by decide)
  exact h2.2

end DesignUtils
